import Mathlib

/-!
# khl REST layer: request dispatch and pagination

A shallow embedding of `rest.go` (package `khl`): `Session.request`,
`Session.Request`, `Session.RequestWithPage` and `Session.MessageCreate`.

Go functions return `(value, err)` pairs with named results; the embedding keeps
both components, a nil slice, nil pointer or nil error being `none`.  Effects
(log records, the call of `Client.Do`, closing the response body) are recorded
in order in a trace.  The standard library (`encoding/json`, `net/url`,
`net/http`) is not part of the repository: what the code needs from it is a
parameter, `Stdlib`, and every theorem holds for every instance of it.
-/

set_option autoImplicit false
set_option linter.unusedVariables false

namespace khl

/-! ## Data model -/

/-- Contents of a Go byte slice. -/
abbrev Bytes := List UInt8

/-- Go `error` values, identified by their text. -/
abbrev GoError := String

/-- Bytes of an ASCII string literal. -/
def ascii (s : String) : Bytes := s.toList.map (fun c => UInt8.ofNat c.toNat)

/-- Go `len` of a byte slice; a nil slice has length 0. -/
def sliceLen (b : Option Bytes) : Nat :=
  match b with
  | none => 0
  | some bs => bs.length

/-- Contents of a byte slice as a reader sees them; a nil slice is empty. -/
def sliceBytes (b : Option Bytes) : Bytes :=
  match b with
  | none => []
  | some bs => bs

/-- Go `http.Header`, a `map[string][]string`, as an association list with
distinct keys. -/
def Header := List (String × List String)

instance : DecidableEq Header := inferInstanceAs (DecidableEq (List (String × List String)))

/-- Go `Header.Set(key, value)`: `h[key] = []string{value}`. The keys set by this
package are already in canonical MIME form. -/
def Header.Set (h : Header) (key value : String) : Header :=
  (key, [value]) :: List.filter (fun kv => kv.1 != key) h

/-- Go `h[key]` together with presence of the key (`Header.Values`). -/
def Header.Values (h : Header) (key : String) : Option (List String) :=
  match List.find? (fun kv => kv.1 == key) h with
  | none => none
  | some kv => some kv.2

/-- Go `url.Values`, a `map[string][]string`, as an association list with
distinct keys. -/
def Values := List (String × List String)

instance : DecidableEq Values := inferInstanceAs (DecidableEq (List (String × List String)))

/-- Go `v[key]`; the nil slice of a missing key is the empty list. -/
def Values.lookup (v : Values) (key : String) : List String :=
  match List.find? (fun kv => kv.1 == key) v with
  | none => []
  | some kv => kv.2

/-- Go `Values.Set(key, value)`: `v[key] = []string{value}`. -/
def Values.Set (v : Values) (key value : String) : Values :=
  (key, [value]) :: List.filter (fun kv => kv.1 != key) v

/-- Go `Values.Add(key, value)`: `v[key] = append(v[key], value)`. -/
def Values.Add (v : Values) (key value : String) : Values :=
  (key, v.lookup key ++ [value]) :: List.filter (fun kv => kv.1 != key) v

/-- Go `url.URL`, the fields this package touches. -/
structure URL where
  Scheme : String
  Host : String
  Path : String
  RawQuery : String
deriving DecidableEq, Repr

/-- Go `http.Request`, as built by `http.NewRequest`. -/
structure HttpRequest where
  Method : String
  URL : String
  Header : Header
  Body : Bytes
deriving DecidableEq

/-- Body stream of a response: what `ioutil.ReadAll` returns on it and what
`Close` returns. -/
structure ResponseBody where
  ReadAll : Except GoError Bytes
  Close : Option GoError

/-- Go `http.Response`. -/
structure HttpResponse where
  StatusCode : Int
  Status : String
  Header : Header
  Body : ResponseBody

/-- Modelled from the spec: the declaration of `EndpointGeneralResponse` is missing
from the sources; the spec gives the envelope as `code: integer, message: string,
data: raw bytes`. `Data` is nil (`none`) when the body has no `data` field. -/
structure EndpointGeneralResponse where
  Code : Int
  Message : String
  Data : Option Bytes
deriving DecidableEq

/-- Modelled from the spec: the declaration of `PageSetting` is missing from the
sources; the spec gives `page: optional integer, page_size: optional integer,
sort: optional string`, and `RequestWithPage` reads them through pointers
(`Sort_` is the field `Sort`). -/
structure PageSetting where
  Page : Option Int
  PageSize : Option Int
  Sort_ : Option String
deriving DecidableEq

/-- Modelled from the spec: the declaration of `PageInfo` is missing from the
sources; the spec names it the server-reported pagination state (current page,
total pages, page size, total items), forwarded untouched. -/
structure PageInfo where
  Page : Int
  PageTotal : Int
  PageSize : Int
  Total : Int
deriving DecidableEq

/-- Modelled from the spec: the declaration of `GeneralListData` is missing from
the sources; the spec gives the list envelope as `items: raw bytes, meta: PageInfo`. -/
structure GeneralListData where
  Items : Option Bytes
  Meta : PageInfo
deriving DecidableEq

/-- Type `MessageCreateBase` (rest.go:100). `Type_` is the field `Type`, a `MessageType`
(an integer). -/
structure MessageCreateBase where
  Type_ : Int
  TargetID : String
  Content : String
  Quote : String
  Nonce : String
deriving DecidableEq

/-- Type `MessageCreate` (rest.go:109). -/
structure MessageCreate where
  MessageCreateBase : MessageCreateBase
  TempTargetID : String
deriving DecidableEq

/-- Type `MessageResp` (rest.go:115). `MegTimestamp` is a `MilliTimeStamp`, an integer. -/
structure MessageResp where
  MsgID : String
  MegTimestamp : Int
  Nonce : String
deriving DecidableEq

/-- Type `Identify`, the credential bundle of a session. -/
structure Identify where
  Token : String
  Compress : Bool

/-- Type `Session`: the credential and the HTTP client; `Client` is `Client.Do`.
The logger is the trace of the embedding. -/
structure Session where
  Identify : Identify
  Client : HttpRequest → Except GoError HttpResponse

/-- Levels of the logger used by `request`. -/
inductive LogLevel where
  | Trace
  | Error
deriving DecidableEq

/-- Observable effects of a call, in program order. -/
inductive Event where
  | log (level : LogLevel) (msg : String)
  | send (req : HttpRequest)
  | closeBody
deriving DecidableEq

/-- What the code takes from the Go standard library, for payloads of type `P`
(the dynamic values passed as `interface{}`). -/
structure Stdlib (P : Type) where
  /-- Go `json.Marshal`. -/
  Marshal : P → Except GoError Bytes
  /-- A successful `json.Marshal` returns a JSON text, which is never empty. -/
  Marshal_nonempty : ∀ p b, Marshal p = Except.ok b → b ≠ []
  /-- Go `json.Unmarshal` of a body into a pointer to a zero `EndpointGeneralResponse`. -/
  decodeEnvelope : Bytes → Except GoError EndpointGeneralResponse
  /-- Go `json.Unmarshal` of a payload into a pointer to a zero `GeneralListData`. -/
  decodeListData : Bytes → Except GoError GeneralListData
  /-- Go `json.Unmarshal` of a payload into a pointer to a zero `MessageResp`. -/
  decodeMessageResp : Bytes → Except GoError MessageResp
  /-- Error of `json.Unmarshal` when its target is a nil pointer: a syntax error for
  invalid input, an `InvalidUnmarshalError` otherwise. -/
  nilTargetError : Bytes → GoError
  /-- Go `validMethod` of `net/http`: the method is a non-empty token. -/
  validMethod : String → Bool
  /-- Error of `http.NewRequest` for an invalid method. -/
  invalidMethodError : String → GoError
  /-- Go `url.Parse`. -/
  Parse : String → Except GoError URL
  /-- Go `url.ParseQuery` as used by `URL.Query`, which drops the error. -/
  ParseQuery : String → Values
  /-- Go `Values.Encode`. -/
  Encode : Values → String

/-- Go `json.Unmarshal(data, v)` for a pointer `v` (`none` is the nil pointer): a nil
target is always an error, otherwise the decoder for the target type runs. Every
non-nil target in this package points to a fresh zero value, so the decoders take no
initial value. -/
def Unmarshal {α : Type} (nilErr : Bytes → GoError) (decode : Bytes → Except GoError α)
    (data : Option Bytes) (v : Option α) : Except GoError α :=
  match v with
  | none => Except.error (nilErr (sliceBytes data))
  | some _ => decode (sliceBytes data)

/-- Go `http.NewRequest(method, url, bytes.NewBuffer(body))`: an empty method means
GET, an invalid method or a URL that `url.Parse` rejects is an error, the header map
starts empty, the body is the content of the buffer. -/
def NewRequest {P : Type} (L : Stdlib P) (method url : String) (body : Option Bytes) :
    Except GoError HttpRequest :=
  let method := if method = "" then "GET" else method
  if L.validMethod method then
    match L.Parse url with
    | Except.error e => Except.error e
    | Except.ok _ =>
      Except.ok { Method := method, URL := url, Header := [], Body := sliceBytes body }
  else Except.error (L.invalidMethodError method)

/-- Result of `request` and `Request`: the named results `response` and `err`, and
the effects of the call. -/
structure Result where
  trace : List Event
  response : Option Bytes
  err : Option GoError
deriving DecidableEq

/-- The deferred function of `request` (rest.go:758): close the body, log when
closing fails. -/
def closeResponse (resp : HttpResponse) : List Event :=
  match resp.Body.Close with
  | some _ => [Event.closeBody, Event.log LogLevel.Error "error closing resp body"]
  | none => [Event.closeBody]

/-- Lines 725-731 of `request`: `body` stays nil without a payload, otherwise it is
the output of `json.Marshal`, whose error ends the call. -/
def serialize {P : Type} (L : Stdlib P) (data : Option P) : Except GoError (Option Bytes) :=
  match data with
  | none => Except.ok none
  | some d =>
    match L.Marshal d with
    | Except.error e => Except.error e
    | Except.ok b => Except.ok (some b)

/-- Lines 743-746 of `request`: set `Authorization` to the token, and `Content-Type`
when `len(body) > 0`. -/
def setHeaders (s : Session) (req : HttpRequest) (body : Option Bytes) : HttpRequest :=
  let req : HttpRequest := { req with Header := req.Header.Set "Authorization" s.Identify.Token }
  if sliceLen body > 0 then
    { req with Header := req.Header.Set "Content-Type" "application/json" }
  else req

/-- Lines 766-799 of `request`: read the body, decode the envelope, set the named
results. The deferred close is not part of it. -/
def readResponse {P : Type} (L : Stdlib P) (resp : HttpResponse) : Result :=
  match resp.Body.ReadAll with
  | Except.error e =>
    { trace := [Event.log LogLevel.Error ""], response := none, err := some e }
  | Except.ok respByte =>
    let t := [Event.log LogLevel.Trace "http response",
              Event.log LogLevel.Trace "http response headers"]
    -- var r EndpointGeneralResponse; err = json.Unmarshal(respByte, &r)
    match L.decodeEnvelope respByte with
    | Except.error e =>
      { trace := t ++ [Event.log LogLevel.Error "response unmarshal error"]
        response := none, err := some e }
    | Except.ok r =>
      if r.Code ≠ 0 then
        -- logs the code and message, then a bare return: `err` is still nil
        { trace := t ++ [Event.log LogLevel.Error "api response error"]
          response := none, err := none }
      else
        { trace := t, response := r.Data, err := none }

/-- Method `Session.request` (rest.go:724). The parameter `sequence` is not used by
the body. -/
def Session.request {P : Type} (L : Stdlib P) (s : Session) (method url : String)
    (data : Option P) (sequence : Int) : Result :=
  match serialize L data with
  | Except.error e => { trace := [], response := none, err := some e }
  | Except.ok body =>
    match NewRequest L method url body with
    | Except.error e =>
      { trace := [Event.log LogLevel.Trace "http api request"], response := none, err := some e }
    | Except.ok req =>
      let req := setHeaders s req body
      let sent := [Event.log LogLevel.Trace "http api request",
                   Event.log LogLevel.Trace "http api request headers", Event.send req]
      match s.Client req with
      | Except.error e =>
        { trace := sent ++ [Event.log LogLevel.Error ""], response := none, err := some e }
      | Except.ok resp =>
        -- defer resp.Body.Close(): runs when the function returns, on every path below
        let out := readResponse L resp
        { trace := sent ++ out.trace ++ closeResponse resp
          response := out.response, err := out.err }

/-- Method `Session.Request` (rest.go:720). -/
def Session.Request {P : Type} (L : Stdlib P) (s : Session) (method url : String)
    (data : Option P) : Result :=
  s.request L method url data 0

/-- Go `strconv.Itoa`. -/
def Itoa (i : Int) : String := toString i

/-- Result of `RequestWithPage`: the named results `response`, `meta` and `err`,
and the effects of the call. -/
structure PageResult where
  trace : List Event
  response : Option Bytes
  meta : Option PageInfo
  err : Option GoError
deriving DecidableEq

/-- Lines 708-716 of `RequestWithPage`: pass on the error of `Request`, otherwise
decode the payload into a fresh `GeneralListData` and return its items and meta. -/
def listResult {P : Type} (L : Stdlib P) (out : Result) : PageResult :=
  match out.err with
  | some e => { trace := out.trace, response := none, meta := none, err := some e }
  | none =>
    let g : GeneralListData :=
      { Items := none, Meta := { Page := 0, PageTotal := 0, PageSize := 0, Total := 0 } }
    match Unmarshal L.nilTargetError L.decodeListData out.response (some g) with
    | Except.error e => { trace := out.trace, response := none, meta := none, err := some e }
    | Except.ok g => { trace := out.trace, response := g.Items, meta := some g.Meta, err := none }

/-- Method `Session.RequestWithPage` (rest.go:694). The result is `none` when the
call panics on a nil pointer: `ur` is nil when `url.Parse` fails, and `page` is
dereferenced without a check. The query built from `page` is stored in `ur` only;
`Request` receives the string `u`. -/
def Session.RequestWithPage {P : Type} (L : Stdlib P) (s : Session) (method u : String)
    (page : Option PageSetting) : Option PageResult :=
  match L.Parse u with
  | Except.error _ => none
  | Except.ok ur =>
    let q := L.ParseQuery ur.RawQuery
    match page with
    | none => none
    | some page =>
      let q := match page.Page with
        | some n => q.Add "page" (Itoa n)
        | none => q
      let q := match page.PageSize with
        | some n => q.Add "page_size" (Itoa n)
        | none => q
      let q := match page.Sort_ with
        | some srt => q.Add "sort" srt
        | none => q
      let ur : URL := { ur with RawQuery := L.Encode q }
      -- resp, err := s.Request(method, u, nil)
      some (listResult L (s.Request L method u (none : Option P)))

/-- Type `ChannelRoleBase` (rest.go:330); `ChannelRoleDelete` (rest.go:377) is declared
as this type. `Type_` is the field `Type`. -/
structure ChannelRoleBase where
  ChannelID : String
  Type_ : String
  Value : String
deriving DecidableEq

/-- Dynamic values that the endpoint functions pass as the `interface{}` payload:
a `*MessageCreate`, the anonymous struct of `ChannelDelete` with its one field
`ChannelID`, and a `*ChannelRoleDelete`. -/
inductive Payload where
  | MessageCreate (m : Option MessageCreate)
  | ChannelID (channelID : String)
  | ChannelRoleDelete (crd : Option ChannelRoleBase)
deriving DecidableEq

/-- Endpoint constants; their declarations are missing from the sources, so they are
parameters. -/
structure Endpoints where
  EndpointMessageCreate : String
  EndpointChannelRoleDelete : String

/-- Result of `MessageCreate`: the named results `resp` and `err`, and the effects
of the call. -/
structure MessageResult where
  trace : List Event
  resp : Option MessageResp
  err : Option GoError
deriving DecidableEq

/-- Method `Session.MessageCreate` (rest.go:123). The named result `resp` is a nil
pointer and is handed to `json.Unmarshal` as it is. -/
def Session.MessageCreate (L : Stdlib Payload) (E : Endpoints) (s : Session)
    (m : Option MessageCreate) : MessageResult :=
  let resp : Option MessageResp := none
  let out := s.Request L "POST" E.EndpointMessageCreate (some (Payload.MessageCreate m))
  match out.err with
  | some e => { trace := out.trace, resp := none, err := some e }
  | none =>
    match Unmarshal L.nilTargetError L.decodeMessageResp out.response resp with
    | Except.error e => { trace := out.trace, resp := none, err := some e }
    | Except.ok v => { trace := out.trace, resp := some v, err := none }

/-! ## Observations -/

/-- The requests handed to `Client.Do` during a call, in order. -/
def sentRequests (t : List Event) : List HttpRequest :=
  t.filterMap (fun ev => match ev with
    | Event.send req => some req
    | _ => none)

/-- Value of a header of a request, `none` when the request lacks the header. -/
def headerOf (req : HttpRequest) (key : String) : Option (List String) :=
  req.Header.Values key

/-- Effects of a call of `RequestWithPage`; a call that panics at its start has none. -/
def pageTrace (o : Option PageResult) : List Event :=
  match o with
  | none => []
  | some r => r.trace

/-- The named results `(response, meta, err)` of a call of `RequestWithPage` that
returned. -/
def returned (o : Option PageResult) :
    Option (Option Bytes × Option PageInfo × Option GoError) :=
  match o with
  | none => none
  | some r => some (r.response, r.meta, r.err)

/-- Text after the first `?` of a URL string. -/
def rawQueryOf (u : String) : List Char :=
  List.drop 1 (List.dropWhile (fun c => c != '?') u.toList)

/-- The `key=value` items of the query of a URL string, split at `&`. -/
def queryItems (u : String) : List String :=
  List.map String.mk (List.splitOn '&' (rawQueryOf u))

/-! ## Sample instance

A standard-library instance and sessions for the scenarios of the specification.
The decoders know the sample bodies only; the theorems below quantify over every
instance, the samples serve to evaluate them. -/

/-- Sample payload values: `map[string]int{"a": 1}`, and a channel, which
`json.Marshal` rejects. -/
inductive SamplePayload where
  | mapA1
  | chanInt
deriving DecidableEq

/-- Body with a platform error code. -/
def bodyBadToken : Bytes := ascii "\x7b\"code\":40001,\"message\":\"bad token\"\x7d"

/-- Payload of a created message. -/
def dataMsg : Bytes := ascii "\x7b\"msg_id\":\"abc\"\x7d"

/-- Success body carrying `dataMsg`. -/
def bodyMsg : Bytes := ascii "\x7b\"code\":0,\"message\":\"\",\"data\":\x7b\"msg_id\":\"abc\"\x7d\x7d"

/-- Raw items of the list scenario. -/
def itemsList : Bytes := ascii "[\x7b\"id\":1\x7d]"

/-- List-shaped payload. -/
def dataList : Bytes :=
  ascii "\x7b\"items\":[\x7b\"id\":1\x7d],\"meta\":\x7b\"page\":1,\"page_total\":3\x7d\x7d"

/-- Success body carrying `dataList`. -/
def bodyList : Bytes :=
  ascii "\x7b\"code\":0,\"message\":\"\",\"data\":\x7b\"items\":[\x7b\"id\":1\x7d],\"meta\":\x7b\"page\":1,\"page_total\":3\x7d\x7d\x7d"

/-- Payload that is an object without `items` and `meta`. -/
def dataEmptyObject : Bytes := ascii "\x7b\x7d"

/-- Success body carrying `dataEmptyObject`. -/
def bodyEmptyObject : Bytes := ascii "\x7b\"code\":0,\"message\":\"\",\"data\":\x7b\x7d\x7d"

/-- Payload that is a JSON string, not an object. -/
def dataString : Bytes := ascii "\"oops\""

/-- Success body carrying `dataString`. -/
def bodyString : Bytes := ascii "\x7b\"code\":0,\"message\":\"\",\"data\":\"oops\"\x7d"

/-- Body that is not JSON. -/
def bodyHtml : Bytes := ascii "<html>"

/-- Serialization of `SamplePayload.mapA1`. -/
def jsonA1 : Bytes := ascii "\x7b\"a\":1\x7d"

/-- Sample endpoint without a query. -/
def urlUserMe : String := "https://www.kaiheila.cn/api/v3/user/me"

/-- Sample endpoint for posting. -/
def urlMessageCreate : String := "https://www.kaiheila.cn/api/v3/message/create"

/-- Sample list endpoint with a query. -/
def urlRoleList : String := "https://www.kaiheila.cn/api/v3/guild-role/list?guild_id=1"

/-- Keys in increasing order with their values, each pair as `key=value` joined by `&`
(the sample keys and values need no escaping). -/
def sampleEncode (v : Values) : String :=
  String.intercalate "&"
    (List.flatten (List.map (fun kv => List.map (fun x => kv.1 ++ "=" ++ x) kv.2)
      (List.insertionSort (fun a b => a.1 ≤ b.1) v)))

/-- Standard-library sample: the values of the library functions at the sample
inputs; other bodies are reported as errors. -/
def sampleLib : Stdlib SamplePayload where
  Marshal p :=
    match p with
    | SamplePayload.mapA1 => Except.ok jsonA1
    | SamplePayload.chanInt => Except.error "json: unsupported type: chan int"
  Marshal_nonempty := by
    intro p b h
    cases p with
    | mapA1 =>
      have hb : b = jsonA1 := by
        injection h with h
        exact h.symm
      rw [hb]
      decide
    | chanInt => cases h
  decodeEnvelope body :=
    if body = bodyBadToken then
      Except.ok { Code := 40001, Message := "bad token", Data := none }
    else if body = bodyMsg then Except.ok { Code := 0, Message := "", Data := some dataMsg }
    else if body = bodyList then Except.ok { Code := 0, Message := "", Data := some dataList }
    else if body = bodyEmptyObject then
      Except.ok { Code := 0, Message := "", Data := some dataEmptyObject }
    else if body = bodyString then
      Except.ok { Code := 0, Message := "", Data := some dataString }
    else Except.error "invalid character looking for beginning of value"
  decodeListData data :=
    if data = dataList then
      Except.ok { Items := some itemsList
                  Meta := { Page := 1, PageTotal := 3, PageSize := 0, Total := 0 } }
    else if data = dataEmptyObject then
      Except.ok { Items := none, Meta := { Page := 0, PageTotal := 0, PageSize := 0, Total := 0 } }
    else Except.error "json: cannot unmarshal into Go value of type khl.GeneralListData"
  decodeMessageResp data :=
    if data = dataMsg then Except.ok { MsgID := "abc", MegTimestamp := 0, Nonce := "" }
    else Except.error "json: cannot unmarshal into Go value of type khl.MessageResp"
  nilTargetError := fun _ => "json: Unmarshal(nil)"
  validMethod method := method = "GET" || method = "POST"
  invalidMethodError := fun _ => "net/http: invalid method"
  Parse u :=
    if u = urlUserMe then
      Except.ok { Scheme := "https", Host := "www.kaiheila.cn", Path := "/api/v3/user/me",
                  RawQuery := "" }
    else if u = urlMessageCreate then
      Except.ok { Scheme := "https", Host := "www.kaiheila.cn",
                  Path := "/api/v3/message/create", RawQuery := "" }
    else if u = urlRoleList then
      Except.ok { Scheme := "https", Host := "www.kaiheila.cn",
                  Path := "/api/v3/guild-role/list", RawQuery := "guild_id=1" }
    else Except.error "parse: invalid URL"
  ParseQuery q := if q = "guild_id=1" then [("guild_id", ["1"])] else []
  Encode := sampleEncode

/-- Answer with status 200 and the given body, which reads and closes without error. -/
def answer (body : Bytes) : HttpResponse :=
  { StatusCode := 200, Status := "200 OK", Header := [],
    Body := { ReadAll := Except.ok body, Close := none } }

/-- Session with token `Bot token` whose client answers every request with
`answer body`. -/
def replying (body : Bytes) : Session where
  Identify := { Token := "Bot token", Compress := false }
  Client := fun _ => Except.ok (answer body)

/-- Sample request: GET of `urlUserMe` without a payload, as sent by `replying`. -/
def getUserMe : HttpRequest :=
  { Method := "GET", URL := urlUserMe, Header := [("Authorization", ["Bot token"])], Body := [] }

/-- Sample request: GET of `urlRoleList` without a payload, as sent by `replying`. -/
def getRoleList : HttpRequest :=
  { Method := "GET", URL := urlRoleList, Header := [("Authorization", ["Bot token"])],
    Body := [] }

/-- Sample request: POST of `SamplePayload.mapA1` to `urlMessageCreate`, as sent by
`replying`. -/
def postA1 : HttpRequest :=
  { Method := "POST", URL := urlMessageCreate,
    Header := [("Content-Type", ["application/json"]), ("Authorization", ["Bot token"])],
    Body := jsonA1 }

/-! ## Channel deletion -/

/-- Result of an endpoint function that returns only `err`, and the effects of the
call. -/
structure ErrResult where
  trace : List Event
  err : Option GoError
deriving DecidableEq

/-- Method `Session.ChannelDelete` (rest.go:282). -/
def Session.ChannelDelete (L : Stdlib Payload) (E : Endpoints) (s : Session)
    (channelID : String) : ErrResult :=
  let out := s.Request L "POST" E.EndpointChannelRoleDelete (some (Payload.ChannelID channelID))
  { trace := out.trace, err := out.err }

/-- Method `Session.ChannelRoleDelete` (rest.go:381). -/
def Session.ChannelRoleDelete (L : Stdlib Payload) (E : Endpoints) (s : Session)
    (crd : Option ChannelRoleBase) : ErrResult :=
  let out := s.Request L "POST" E.EndpointChannelRoleDelete (some (Payload.ChannelRoleDelete crd))
  { trace := out.trace, err := out.err }

/-! ## Query options and list endpoints -/

/-- Go `Values.Encode`, the items it writes: the keys in increasing order (strings
compared character by character), under each key its values in their order. -/
def Values.items (v : Values) : List (String × String) :=
  List.flatten (List.map (fun kv => List.map (fun x => (kv.1, x)) kv.2)
    (List.insertionSort (fun a b => a.1.toList ≤ b.1.toList) v))

/-- Go `Values.Encode` for a given `QueryEscape`: every item as `key=value`, both
escaped, the items joined by `&`. -/
def Values.Encode (escape : String → String) (v : Values) : String :=
  String.intercalate "&" (List.map (fun p => escape p.1 ++ "=" ++ escape p.2) v.items)

/-- Type `MessageListOption` (rest.go:40), a `func(values url.Values)`: the map is
mutated in place, so an option is a function from the map to the map. -/
abbrev MessageListOption := Values → Values

/-- Function `MessageListWithMsgID` (rest.go:43). -/
def MessageListWithMsgID (msgID : String) : MessageListOption :=
  fun values => values.Set "msg_id" msgID

/-- Function `MessageListWithPin` (rest.go:50). -/
def MessageListWithPin (pin : Bool) : MessageListOption :=
  fun values => if pin then values.Set "pin" "1" else values.Set "pin" "0"

/-- Type `MessageListFlag` (rest.go:61), a string. -/
abbrev MessageListFlag := String

/-- Constant `MessageListFlagBefore`. -/
def MessageListFlagBefore : MessageListFlag := "before"

/-- Constant `MessageListFlagAround`. -/
def MessageListFlagAround : MessageListFlag := "around"

/-- Constant `MessageListFlagAfter`. -/
def MessageListFlagAfter : MessageListFlag := "after"

/-- Function `MessageListWithFlag` (rest.go:71). -/
def MessageListWithFlag (flag : MessageListFlag) : MessageListOption :=
  fun values => values.Set "flag" flag

/-- Type `GuildUserListOption` (rest.go:489), a `func(values url.Values)`. -/
abbrev GuildUserListOption := Values → Values

/-- Go `strconv.FormatInt(i, 10)`. -/
def FormatInt (i : Int) : String := toString i

/-- Function `GuildUserListWithChannelID` (rest.go:492). -/
def GuildUserListWithChannelID (id : String) : GuildUserListOption :=
  fun values => values.Set "channel_id" id

/-- Function `GuildUserListWithSearch` (rest.go:499). -/
def GuildUserListWithSearch (search : String) : GuildUserListOption :=
  fun values => values.Set "search" search

/-- Function `GuildUserListWithRoleID` (rest.go:506). -/
def GuildUserListWithRoleID (roleID : Int) : GuildUserListOption :=
  fun values => values.Set "role_id" (FormatInt roleID)

/-- Function `GuildUserListWithMobileVerified` (rest.go:513). -/
def GuildUserListWithMobileVerified (verified : Bool) : GuildUserListOption :=
  fun values =>
    if verified then values.Set "mobile_verified" "1" else values.Set "mobile_verified" "0"

/-- Function `GuildUserListWithActiveTime` (rest.go:524). -/
def GuildUserListWithActiveTime (activeTime : Bool) : GuildUserListOption :=
  fun values =>
    if activeTime then values.Set "active_time" "1" else values.Set "active_time" "0"

/-- Function `GuildUserListWithJoinedAt` (rest.go:535). -/
def GuildUserListWithJoinedAt (joinedAt : Bool) : GuildUserListOption :=
  fun values => if joinedAt then values.Set "joined_at" "1" else values.Set "joined_at" "0"

/-- What the list endpoints use and the sources do not hold: the two endpoint
constants, `URL.String` of `net/url`, and `json.Unmarshal` into a pointer to a nil
slice of `*DetailedChannelMessage` (type `D`) and of `*User` (type `U`), whose
declarations are missing; a nil slice is `none`. -/
structure ListEnv (D U : Type) where
  EndpointMessageList : String
  EndpointGuildUserList : String
  URLString : URL → String
  decodeMessages : Bytes → Except GoError (Option (List D))
  decodeUsers : Bytes → Except GoError (Option (List U))

/-- The URL `u` after the assignment `u.RawQuery = query`. -/
def URL.withQuery (u : URL) (query : String) : URL :=
  { u with RawQuery := query }

/-- Lines 82-86 of `MessageList`: the parameter set `q` after `target_id` is set and
every option has been applied, in the order of the list. -/
def messageListParams (q : Values) (targetID : String) (options : List MessageListOption) :
    Values :=
  List.foldl (fun q item => item q) (q.Set "target_id" targetID) options

/-- Result of `MessageList`: the named results `ms` and `err`, and the effects of the
call. -/
structure MessageListResult (D : Type) where
  trace : List Event
  ms : Option (List D)
  err : Option GoError

/-- Method `Session.MessageList` (rest.go:79). The result is `none` when the call
panics: `u` is nil when `url.Parse` rejects the endpoint constant. -/
def Session.MessageList {P D U : Type} (L : Stdlib P) (X : ListEnv D U) (s : Session)
    (targetID : String) (options : List MessageListOption) : Option (MessageListResult D) :=
  match L.Parse X.EndpointMessageList with
  | Except.error _ => none
  | Except.ok u =>
    let q := messageListParams (L.ParseQuery u.RawQuery) targetID options
    let u : URL := u.withQuery (L.Encode q)
    let out := s.Request L "GET" (X.URLString u) (none : Option P)
    match out.err with
    | some e => some { trace := out.trace, ms := none, err := some e }
    | none =>
      match Unmarshal L.nilTargetError X.decodeMessages out.response (some none) with
      | Except.error e => some { trace := out.trace, ms := none, err := some e }
      | Except.ok ms => some { trace := out.trace, ms := ms, err := none }

/-- Lines 551-555 of `GuildUserList`: the parameter set `q` after `guild_id` is set and
every option has been applied, in the order of the list. -/
def guildUserListParams (q : Values) (guildID : String) (options : List GuildUserListOption) :
    Values :=
  List.foldl (fun q item => item q) (q.Set "guild_id" guildID) options

/-- Result of `GuildUserList`: the named results `us`, `meta` and `err`, and the effects
of the call. -/
structure GuildUserListResult (U : Type) where
  trace : List Event
  us : Option (List U)
  meta : Option PageInfo
  err : Option GoError

/-- Method `Session.GuildUserList` (rest.go:547). The result is `none` when the call
panics, here or inside `RequestWithPage`. -/
def Session.GuildUserList {P D U : Type} (L : Stdlib P) (X : ListEnv D U) (s : Session)
    (guildID : String) (page : Option PageSetting) (options : List GuildUserListOption) :
    Option (GuildUserListResult U) :=
  match L.Parse X.EndpointGuildUserList with
  | Except.error _ => none
  | Except.ok u =>
    let q := guildUserListParams (L.ParseQuery u.RawQuery) guildID options
    let u : URL := u.withQuery (L.Encode q)
    match s.RequestWithPage L "GET" (X.URLString u) page with
    | none => none
    | some out =>
      match out.err with
      | some e => some { trace := out.trace, us := none, meta := none, err := some e }
      | none =>
        match Unmarshal L.nilTargetError X.decodeUsers out.response (some none) with
        | Except.error e => some { trace := out.trace, us := none, meta := none, err := some e }
        | Except.ok us => some { trace := out.trace, us := us, meta := out.meta, err := none }

/-- The option writes the value `v` under the key `k`, replacing what the key held. -/
def Writes (o : Values → Values) (k v : String) : Prop :=
  ∀ values : Values, o values = values.Set k v

/-- Entries of the parameter set under the key `k`. -/
def Values.entries (q : Values) (k : String) : List (String × List String) :=
  List.filter (fun kv => kv.1 == k) q

/-- Effects of a call of `MessageList`; a call that panics at its start has none. -/
def messageListTrace {D : Type} (o : Option (MessageListResult D)) : List Event :=
  match o with
  | none => []
  | some r => r.trace

/-- Effects of a call of `GuildUserList`; a call that panics at its start has none. -/
def guildUserListTrace {U : Type} (o : Option (GuildUserListResult U)) : List Event :=
  match o with
  | none => []
  | some r => r.trace

/-- The request of a GET of `url` without payload by the session `s`: no body, and
`Authorization` with the token of the session as its one header. -/
def bareGet (s : Session) (url : String) : HttpRequest :=
  { Method := "GET", URL := url, Header := Header.Set [] "Authorization" s.Identify.Token,
    Body := [] }

/-- Number of times the response body is closed in a trace. -/
def closeCount (t : List Event) : Nat :=
  List.count Event.closeBody t

/-! ## Sample instance for the endpoint functions -/

/-- Scheme and host of the platform. -/
def apiBase : String := "https://www.kaiheila.cn"

/-- Sample value of `EndpointMessageList`. -/
def urlMessageList : String := "https://www.kaiheila.cn/api/v3/message/list"

/-- Sample value of `EndpointGuildUserList`. -/
def urlGuildUserList : String := "https://www.kaiheila.cn/api/v3/guild/user-list"

/-- Sample value of `EndpointChannelRoleDelete`. -/
def urlChannelRoleDelete : String := "https://www.kaiheila.cn/api/v3/channel-role/delete"

/-- Sample of `url.Parse`: it accepts the URLs of the platform and splits the query
off at the first `?`. -/
def apiParse (u : String) : Except GoError URL :=
  if List.take apiBase.length u.toList = apiBase.toList then
    let rest := List.drop apiBase.length u.toList
    Except.ok { Scheme := "https", Host := "www.kaiheila.cn"
                Path := String.mk (List.takeWhile (fun c => c != '?') rest)
                RawQuery := String.mk (List.drop 1 (List.dropWhile (fun c => c != '?') rest)) }
  else Except.error "parse: not a URL of the platform"

/-- Sample of `URL.String`, for URLs with a scheme, a host and a path that needs no
escaping. -/
def apiURLString (u : URL) : String :=
  u.Scheme ++ "://" ++ u.Host ++ u.Path ++ (if u.RawQuery = "" then "" else "?" ++ u.RawQuery)

/-- Serialization of the payload of `ChannelDelete` for channel `c1`, and of a
`ChannelRoleDelete` that names only channel `c1`. -/
def jsonChannelC1 : Bytes := ascii "\x7b\"channel_id\":\"c1\"\x7d"

/-- Standard-library sample for the endpoint functions: `sampleLib` with the
serialization of the sample payloads (other payloads are reported as errors),
`apiParse`, and `Values.Encode` for keys and values that need no escaping. -/
def apiLib : Stdlib Payload where
  Marshal p :=
    if p = Payload.ChannelID "c1" then Except.ok jsonChannelC1
    else if p = Payload.ChannelRoleDelete (some { ChannelID := "c1", Type_ := "", Value := "" })
    then Except.ok jsonChannelC1
    else if p = Payload.MessageCreate none then Except.ok (ascii "null")
    else Except.error "payload outside the samples"
  Marshal_nonempty := by
    intro p b h
    simp only [] at h
    split at h
    · injection h with h
      rw [← h]
      decide
    · split at h
      · injection h with h
        rw [← h]
        decide
      · split at h
        · injection h with h
          rw [← h]
          decide
        · cases h
  decodeEnvelope := sampleLib.decodeEnvelope
  decodeListData := sampleLib.decodeListData
  decodeMessageResp := sampleLib.decodeMessageResp
  nilTargetError := sampleLib.nilTargetError
  validMethod := sampleLib.validMethod
  invalidMethodError := sampleLib.invalidMethodError
  Parse := apiParse
  ParseQuery := sampleLib.ParseQuery
  Encode := Values.Encode (fun x => x)

/-- Sample endpoint constants. -/
def sampleEndpoints : Endpoints where
  EndpointMessageCreate := urlMessageCreate
  EndpointChannelRoleDelete := urlChannelRoleDelete

/-- Sample environment of the list endpoints; the decoders know the empty array. -/
def sampleListEnv : ListEnv Unit Unit where
  EndpointMessageList := urlMessageList
  EndpointGuildUserList := urlGuildUserList
  URLString := apiURLString
  decodeMessages data :=
    if data = ascii "[]" then Except.ok (some [])
    else Except.error "json: cannot unmarshal into Go value of type []*khl.DetailedChannelMessage"
  decodeUsers data :=
    if data = ascii "[]" then Except.ok (some [])
    else Except.error "json: cannot unmarshal into Go value of type []*khl.User"

/-- Answer with status 200 whose body fails to read. -/
def unreadable : HttpResponse :=
  { StatusCode := 200, Status := "200 OK", Header := [],
    Body := { ReadAll := Except.error "unexpected EOF", Close := none } }

/-- Session with token `Bot token` whose client answers every request with `resp`. -/
def answering (resp : HttpResponse) : Session where
  Identify := { Token := "Bot token", Compress := false }
  Client := fun _ => Except.ok resp

/-- Session with token `Bot token` whose client fails on every request. -/
def refusing : Session where
  Identify := { Token := "Bot token", Compress := false }
  Client := fun _ => Except.error "dial tcp: connection refused"

/-- Sample request: the POST that `ChannelDelete` and `ChannelRoleDelete` send for
channel `c1`. -/
def postChannelC1 : HttpRequest :=
  { Method := "POST", URL := urlChannelRoleDelete,
    Header := [("Content-Type", ["application/json"]), ("Authorization", ["Bot token"])],
    Body := jsonChannelC1 }

/-- Sample request: the GET that `MessageList` sends for target `c1` with pin `0`. -/
def getMessageListPin0 : HttpRequest :=
  { Method := "GET", URL := "https://www.kaiheila.cn/api/v3/message/list?pin=0&target_id=c1",
    Header := [("Authorization", ["Bot token"])], Body := [] }

/-- Sample request: the GET that `GuildUserList` sends for guild `g1` with search `b`. -/
def getGuildUserListSearchB : HttpRequest :=
  { Method := "GET",
    URL := "https://www.kaiheila.cn/api/v3/guild/user-list?guild_id=g1&search=b",
    Header := [("Authorization", ["Bot token"])], Body := [] }

/-! ## Lemmas on `request` -/

/-- The requests sent in a concatenated trace. -/
theorem sentRequests_append (a b : List Event) :
    sentRequests (a ++ b) = sentRequests a ++ sentRequests b := by
  simp [sentRequests, List.filterMap_append]

/-- Closing the body sends nothing. -/
theorem sentRequests_closeResponse (resp : HttpResponse) :
    sentRequests (closeResponse resp) = [] := by
  unfold closeResponse
  cases resp.Body.Close <;> rfl

/-- Reading and decoding the answer sends nothing. -/
theorem sentRequests_readResponse {P : Type} (L : Stdlib P) (resp : HttpResponse) :
    sentRequests (readResponse L resp).trace = [] := by
  unfold readResponse
  cases h1 : resp.Body.ReadAll with
  | error e => simp [sentRequests]
  | ok respByte =>
    simp only []
    cases h2 : L.decodeEnvelope respByte with
    | error e => simp [sentRequests]
    | ok r => by_cases h : r.Code = 0 <;> simp [h, sentRequests]

/-- The requests handed to the client by `request`: none when serialization or
`http.NewRequest` fails, otherwise exactly the request built from the serialized body. -/
theorem sentRequests_request {P : Type} (L : Stdlib P) (s : Session) (method url : String)
    (data : Option P) (sequence : Int) :
    sentRequests (s.request L method url data sequence).trace =
      match serialize L data with
      | Except.error _ => []
      | Except.ok body =>
        match NewRequest L method url body with
        | Except.error _ => []
        | Except.ok req => [setHeaders s req body] := by
  unfold Session.request
  cases hs : serialize L data with
  | error e => simp [sentRequests]
  | ok body =>
    simp only []
    cases hn : NewRequest L method url body with
    | error e => simp [sentRequests]
    | ok req =>
      simp only []
      cases hc : s.Client (setHeaders s req body) with
      | error e => simp [sentRequests]
      | ok resp =>
        simp only [sentRequests_append, sentRequests_closeResponse, sentRequests_readResponse]
        simp [sentRequests]

/-- Result of `request` once the client has answered the request that was sent. -/
theorem request_of_answer {P : Type} (L : Stdlib P) (s : Session) (method url : String)
    (data : Option P) (sequence : Int) (req : HttpRequest) (resp : HttpResponse)
    (hsent : req ∈ sentRequests (s.request L method url data sequence).trace)
    (hdo : s.Client req = Except.ok resp) :
    (s.request L method url data sequence).response = (readResponse L resp).response ∧
      (s.request L method url data sequence).err = (readResponse L resp).err := by
  rw [sentRequests_request] at hsent
  cases hs : serialize L data with
  | error e => simp [hs] at hsent
  | ok body =>
    cases hn : NewRequest L method url body with
    | error e => simp [hs, hn] at hsent
    | ok req0 =>
      simp [hs, hn] at hsent
      subst hsent
      unfold Session.request
      simp [hs, hn, hdo]

/-- A successful `http.NewRequest`: the URL parses, and the request has the given URL,
the content of the buffer as body and an empty header map. -/
theorem NewRequest_ok {P : Type} (L : Stdlib P) (method url : String) (body : Option Bytes)
    (req0 : HttpRequest) (hn : NewRequest L method url body = Except.ok req0) :
    (∃ ur, L.Parse url = Except.ok ur) ∧
      req0.URL = url ∧ req0.Body = sliceBytes body ∧ req0.Header = [] := by
  unfold NewRequest at hn
  simp only [] at hn
  by_cases hv : L.validMethod (if method = "" then "GET" else method) = true
  · rw [if_pos hv] at hn
    cases hp : L.Parse url with
    | error e =>
      rw [hp] at hn
      cases hn
    | ok ur =>
      rw [hp] at hn
      injection hn with hn
      subst hn
      exact ⟨⟨ur, rfl⟩, rfl, rfl, rfl⟩
  · rw [if_neg hv] at hn
    cases hn

/-- A request was sent only if `url.Parse` accepts the URL of the call. -/
theorem parse_of_sent {P : Type} (L : Stdlib P) (s : Session) (method url : String)
    (data : Option P) (sequence : Int) (req : HttpRequest)
    (hsent : req ∈ sentRequests (s.request L method url data sequence).trace) :
    ∃ ur, L.Parse url = Except.ok ur := by
  rw [sentRequests_request] at hsent
  cases hs : serialize L data with
  | error e => simp [hs] at hsent
  | ok body =>
    cases hn : NewRequest L method url body with
    | error e => simp [hs, hn] at hsent
    | ok req0 =>
      exact (NewRequest_ok L method url body req0 hn).1

/-- Shape of every request that `request` hands to the client: the URL of the call,
the serialized payload as body, and the headers set by `setHeaders` on an empty
header map. -/
theorem sent_request_shape {P : Type} (L : Stdlib P) (s : Session) (method url : String)
    (data : Option P) (sequence : Int) (req : HttpRequest)
    (hsent : req ∈ sentRequests (s.request L method url data sequence).trace) :
    ∃ body : Option Bytes, serialize L data = Except.ok body ∧
      req.URL = url ∧ req.Body = sliceBytes body ∧
      req.Header =
        (if sliceLen body > 0 then
          Header.Set (Header.Set [] "Authorization" s.Identify.Token)
            "Content-Type" "application/json"
        else Header.Set [] "Authorization" s.Identify.Token) := by
  rw [sentRequests_request] at hsent
  cases hs : serialize L data with
  | error e => simp [hs] at hsent
  | ok body =>
    cases hn : NewRequest L method url body with
    | error e => simp [hs, hn] at hsent
    | ok req0 =>
      simp [hs, hn] at hsent
      subst hsent
      have h0 := (NewRequest_ok L method url body req0 hn).2
      refine ⟨body, rfl, ?_, ?_, ?_⟩
      · unfold setHeaders
        simp only []
        split <;> exact h0.1
      · unfold setHeaders
        simp only []
        split <;> exact h0.2.1
      · unfold setHeaders
        simp only [h0.2.2]
        split <;> rfl

/-- Result of `Request` once the body of the answer has been decoded to an envelope:
a nil error in every case, and the `data` field as payload only when the code is 0. -/
theorem Request_of_envelope {P : Type} (L : Stdlib P) (s : Session)
    (method url : String) (data : Option P) (req : HttpRequest) (resp : HttpResponse)
    (respByte : Bytes) (r : EndpointGeneralResponse)
    (hsent : req ∈ sentRequests (s.Request L method url data).trace)
    (hdo : s.Client req = Except.ok resp)
    (hread : resp.Body.ReadAll = Except.ok respByte)
    (hparse : L.decodeEnvelope respByte = Except.ok r) :
    (s.Request L method url data).response = (if r.Code ≠ 0 then none else r.Data) ∧
      (s.Request L method url data).err = none := by
  have h := request_of_answer L s method url data 0 req resp hsent hdo
  unfold Session.Request
  rw [h.1, h.2]
  unfold readResponse
  by_cases hcode : r.Code = 0 <;> simp [hread, hparse, hcode]

/-- General form of the behaviour behind C1: whenever the body of the answer decodes
to an envelope with a non-zero code, `Request` returns a nil payload and a nil error. -/
theorem Request_nonzero_code_nil_error {P : Type} (L : Stdlib P) (s : Session)
    (method url : String) (data : Option P) (req : HttpRequest) (resp : HttpResponse)
    (respByte : Bytes) (r : EndpointGeneralResponse)
    (hsent : req ∈ sentRequests (s.Request L method url data).trace)
    (hdo : s.Client req = Except.ok resp)
    (hread : resp.Body.ReadAll = Except.ok respByte)
    (hparse : L.decodeEnvelope respByte = Except.ok r)
    (hcode : r.Code ≠ 0) :
    (s.Request L method url data).response = none ∧
      (s.Request L method url data).err = none := by
  have h := Request_of_envelope L s method url data req resp respByte r hsent hdo hread hparse
  rw [if_pos hcode] at h
  exact h

/-- What `RequestWithPage` computes: a panic when `url.Parse` rejects `u`, otherwise
the list result of `Request` on the string `u`, whatever the page setting. -/
theorem RequestWithPage_eq {P : Type} (L : Stdlib P) (s : Session) (method u : String)
    (page : PageSetting) :
    s.RequestWithPage L method u (some page) =
      match L.Parse u with
      | Except.error _ => none
      | Except.ok _ => some (listResult L (s.Request L method u (none : Option P))) := by
  unfold Session.RequestWithPage
  cases L.Parse u <;> rfl

/-- The list result adds no effect to those of `Request`. -/
theorem listResult_trace {P : Type} (L : Stdlib P) (out : Result) :
    (listResult L out).trace = out.trace := by
  unfold listResult
  cases out.err with
  | some e => rfl
  | none =>
    simp only []
    cases Unmarshal L.nilTargetError L.decodeListData out.response
      (some { Items := none, Meta := { Page := 0, PageTotal := 0, PageSize := 0, Total := 0 } })
      <;> rfl

/-- The requests sent by `RequestWithPage` are those of `Request` on the string `u`. -/
theorem sent_of_pageTrace {P : Type} (L : Stdlib P) (s : Session) (method u : String)
    (page : PageSetting) (req : HttpRequest)
    (hsent : req ∈ sentRequests (pageTrace (s.RequestWithPage L method u (some page)))) :
    req ∈ sentRequests (s.Request L method u (none : Option P)).trace ∧
      s.RequestWithPage L method u (some page) =
        some (listResult L (s.Request L method u (none : Option P))) := by
  rw [RequestWithPage_eq] at hsent ⊢
  cases hp : L.Parse u with
  | error e => simp [hp, pageTrace, sentRequests] at hsent
  | ok ur =>
    simp only [hp, pageTrace, listResult_trace] at hsent
    exact ⟨hsent, rfl⟩

/-- General form of the behaviour behind C2: every request that `RequestWithPage`
hands to the client has the URL string `u` it was called with, for every page
setting. -/
theorem RequestWithPage_sends_input_url {P : Type} (L : Stdlib P) (s : Session)
    (method u : String) (page : PageSetting) (req : HttpRequest)
    (hsent : req ∈ sentRequests (pageTrace (s.RequestWithPage L method u (some page)))) :
    req.URL = u := by
  have h := (sent_of_pageTrace L s method u page req hsent).1
  obtain ⟨body, -, hurl, -, -⟩ := sent_request_shape L s method u none 0 req h
  exact hurl

/-! ## Claims -/

/-- C1 (fails on the code): for the body `{"code":40001,"message":"bad token"}`, which
decodes to an envelope with code 40001 and message "bad token", `Session.Request` logs
"api response error" and returns a nil payload together with a nil error, so no error
carrying the code and the message reaches the caller. -/
theorem Request_bad_token_returns_nil_error :
    sampleLib.decodeEnvelope bodyBadToken =
        Except.ok { Code := 40001, Message := "bad token", Data := none } ∧
      Event.log LogLevel.Error "api response error" ∈
        ((replying bodyBadToken).Request sampleLib "GET" urlUserMe
          (none : Option SamplePayload)).trace ∧
      ((replying bodyBadToken).Request sampleLib "GET" urlUserMe
        (none : Option SamplePayload)).response = none ∧
      ((replying bodyBadToken).Request sampleLib "GET" urlUserMe
        (none : Option SamplePayload)).err = none :=
  ⟨rfl, by decide, by decide, by decide⟩

/-- C3: when the body of the answer decodes to an envelope with code 0,
`Session.Request` returns a nil error and, as payload, the `data` field of that
envelope unchanged. -/
theorem Request_code_zero_returns_data {P : Type} (L : Stdlib P) (s : Session)
    (method url : String) (data : Option P) (req : HttpRequest) (resp : HttpResponse)
    (respByte : Bytes) (r : EndpointGeneralResponse)
    (hsent : req ∈ sentRequests (s.Request L method url data).trace)
    (hdo : s.Client req = Except.ok resp)
    (hread : resp.Body.ReadAll = Except.ok respByte)
    (hparse : L.decodeEnvelope respByte = Except.ok r)
    (hcode : r.Code = 0) :
    (s.Request L method url data).response = r.Data ∧
      (s.Request L method url data).err = none := by
  have h := Request_of_envelope L s method url data req resp respByte r hsent hdo hread hparse
  rw [if_neg (not_not.mpr hcode)] at h
  exact h

/-- Witness of C3: the body `{"code":0,"message":"","data":{"msg_id":"abc"}}` yields the
raw data `{"msg_id":"abc"}` and no error. -/
theorem Request_code_zero_returns_data_witness :
    sampleLib.decodeEnvelope bodyMsg =
        Except.ok { Code := 0, Message := "", Data := some dataMsg } ∧
      ((replying bodyMsg).Request sampleLib "GET" urlUserMe
        (none : Option SamplePayload)).response = some dataMsg ∧
      ((replying bodyMsg).Request sampleLib "GET" urlUserMe
        (none : Option SamplePayload)).err = none :=
  ⟨rfl,
   Request_code_zero_returns_data sampleLib (replying bodyMsg) "GET" urlUserMe none getUserMe
    (answer bodyMsg) bodyMsg { Code := 0, Message := "", Data := some dataMsg }
    (by decide) rfl rfl rfl rfl⟩

/-- C4: every request that `Session.request` builds and hands to the client carries
`Content-Type: application/json` exactly when its body is non-empty; without a payload
the body is empty and there is no `Content-Type`; with a payload that serializes to `b`
the body is `b` and `Content-Type` is `application/json`. -/
theorem request_content_type_iff_body {P : Type} (L : Stdlib P) (s : Session)
    (method url : String) (data : Option P) (sequence : Int) (req : HttpRequest)
    (hsent : req ∈ sentRequests (s.request L method url data sequence).trace) :
    (headerOf req "Content-Type" = some ["application/json"] ↔ req.Body ≠ []) ∧
      (headerOf req "Content-Type" = none ↔ req.Body = []) ∧
      (data = none → req.Body = [] ∧ headerOf req "Content-Type" = none) ∧
      (∀ p b, data = some p → L.Marshal p = Except.ok b →
        req.Body = b ∧ headerOf req "Content-Type" = some ["application/json"]) := by
  obtain ⟨body, hs, -, hbody, hhdr⟩ := sent_request_shape L s method url data sequence req hsent
  have hlen : sliceLen body > 0 ↔ req.Body ≠ [] := by
    rw [hbody]
    cases body with
    | none => simp [sliceLen, sliceBytes]
    | some bs => cases bs <;> simp [sliceLen, sliceBytes]
  have hct : headerOf req "Content-Type" =
      if sliceLen body > 0 then some ["application/json"] else none := by
    unfold headerOf
    rw [hhdr]
    split <;> simp [Header.Set, Header.Values]
  have hnone : data = none → req.Body = [] ∧ headerOf req "Content-Type" = none := by
    intro hd
    subst hd
    simp [serialize] at hs
    subst hs
    rw [hct, hbody]
    simp [sliceLen, sliceBytes]
  have hsome : ∀ p b, data = some p → L.Marshal p = Except.ok b →
      req.Body = b ∧ headerOf req "Content-Type" = some ["application/json"] := by
    intro p b hd hm
    subst hd
    simp [serialize, hm] at hs
    subst hs
    have hb : b ≠ [] := L.Marshal_nonempty p b hm
    rw [hct, hbody]
    cases b with
    | nil => exact absurd rfl hb
    | cons x xs => simp [sliceLen, sliceBytes]
  refine ⟨?_, ?_, hnone, hsome⟩
  · rw [hct, ← hlen]
    by_cases h : sliceLen body > 0 <;> simp [h]
  · rw [hct]
    by_cases h : sliceLen body > 0
    · have h2 := hlen.mp h
      simp [h, h2]
    · have h2 : req.Body = [] := by
        by_contra hne
        exact h (hlen.mpr hne)
      simp [h, h2]

/-- Witness of C4: GET without a payload sends a request with no `Content-Type` and no
body; POST with a payload that serializes to `{"a":1}` sends that body with
`Content-Type: application/json`. -/
theorem request_content_type_iff_body_witness :
    (sentRequests ((replying bodyMsg).request sampleLib "GET" urlUserMe
        (none : Option SamplePayload) 0).trace = [getUserMe] ∧
      getUserMe.Body = [] ∧ headerOf getUserMe "Content-Type" = none) ∧
    (sentRequests ((replying bodyMsg).request sampleLib "POST" urlMessageCreate
        (some SamplePayload.mapA1) 0).trace = [postA1] ∧
      postA1.Body = jsonA1 ∧ headerOf postA1 "Content-Type" = some ["application/json"]) :=
  ⟨⟨by decide,
    (request_content_type_iff_body sampleLib (replying bodyMsg) "GET" urlUserMe none 0
      getUserMe (by decide)).2.2.1 rfl⟩,
   ⟨by decide,
    (request_content_type_iff_body sampleLib (replying bodyMsg) "POST" urlMessageCreate
      (some SamplePayload.mapA1) 0 postA1 (by decide)).2.2.2 SamplePayload.mapA1 jsonA1 rfl rfl⟩⟩

/-- C8: when the body of the answer cannot be decoded as an envelope, `Session.Request`
returns the (non-nil) decoding error and a nil payload. -/
theorem Request_undecodable_body_fails {P : Type} (L : Stdlib P) (s : Session)
    (method url : String) (data : Option P) (req : HttpRequest) (resp : HttpResponse)
    (respByte : Bytes) (e : GoError)
    (hsent : req ∈ sentRequests (s.Request L method url data).trace)
    (hdo : s.Client req = Except.ok resp)
    (hread : resp.Body.ReadAll = Except.ok respByte)
    (hparse : L.decodeEnvelope respByte = Except.error e) :
    (s.Request L method url data).response = none ∧
      (s.Request L method url data).err = some e := by
  have h := request_of_answer L s method url data 0 req resp hsent hdo
  unfold Session.Request
  rw [h.1, h.2]
  unfold readResponse
  simp [hread, hparse]

/-- Witness of C8: the body `<html>`, which is no envelope, yields an error and no
payload. -/
theorem Request_undecodable_body_fails_witness :
    sampleLib.decodeEnvelope bodyHtml =
        Except.error "invalid character looking for beginning of value" ∧
      ((replying bodyHtml).Request sampleLib "GET" urlUserMe
        (none : Option SamplePayload)).response = none ∧
      ((replying bodyHtml).Request sampleLib "GET" urlUserMe
        (none : Option SamplePayload)).err =
          some "invalid character looking for beginning of value" :=
  ⟨rfl,
   Request_undecodable_body_fails sampleLib (replying bodyHtml) "GET" urlUserMe none getUserMe
    (answer bodyHtml) bodyHtml "invalid character looking for beginning of value"
    (by decide) rfl rfl rfl⟩

/-- C9: when the payload is non-nil and `json.Marshal` fails on it, `Session.Request`
returns that error with a nil payload, and the call has no effect at all: no request is
built, and none is handed to the client. -/
theorem Request_marshal_error_sends_nothing {P : Type} (L : Stdlib P) (s : Session)
    (method url : String) (p : P) (e : GoError)
    (hmarshal : L.Marshal p = Except.error e) :
    (s.Request L method url (some p)).response = none ∧
      (s.Request L method url (some p)).err = some e ∧
      (s.Request L method url (some p)).trace = [] ∧
      sentRequests (s.Request L method url (some p)).trace = [] := by
  have h : s.Request L method url (some p) = { trace := [], response := none, err := some e } := by
    unfold Session.Request Session.request
    simp [serialize, hmarshal]
  rw [h]
  exact ⟨rfl, rfl, rfl, rfl⟩

/-- Witness of C9: a channel as payload, which `json.Marshal` rejects. -/
theorem Request_marshal_error_sends_nothing_witness :
    ((replying bodyMsg).Request sampleLib "POST" urlMessageCreate
        (some SamplePayload.chanInt)).response = none ∧
      ((replying bodyMsg).Request sampleLib "POST" urlMessageCreate
        (some SamplePayload.chanInt)).err = some "json: unsupported type: chan int" ∧
      ((replying bodyMsg).Request sampleLib "POST" urlMessageCreate
        (some SamplePayload.chanInt)).trace = [] ∧
      sentRequests ((replying bodyMsg).Request sampleLib "POST" urlMessageCreate
        (some SamplePayload.chanInt)).trace = [] :=
  Request_marshal_error_sends_nothing sampleLib (replying bodyMsg) "POST" urlMessageCreate
    SamplePayload.chanInt "json: unsupported type: chan int" rfl

/-- C10: every request that `Session.request` hands to the client carries an
`Authorization` header whose single value is the token of the session, with or without
a body. -/
theorem request_authorization_is_token {P : Type} (L : Stdlib P) (s : Session)
    (method url : String) (data : Option P) (sequence : Int) (req : HttpRequest)
    (hsent : req ∈ sentRequests (s.request L method url data sequence).trace) :
    headerOf req "Authorization" = some [s.Identify.Token] := by
  obtain ⟨body, -, -, -, hhdr⟩ := sent_request_shape L s method url data sequence req hsent
  unfold headerOf
  rw [hhdr]
  split <;> simp [Header.Set, Header.Values]

/-- Witness of C10: the request of the GET sample (no body) and the request of the
POST sample (with a body) are sent and both carry `Authorization: Bot token`. -/
theorem request_authorization_is_token_witness :
    (getUserMe ∈ sentRequests ((replying bodyMsg).request sampleLib "GET" urlUserMe
        (none : Option SamplePayload) 0).trace ∧
      headerOf getUserMe "Authorization" = some ["Bot token"]) ∧
    (postA1 ∈ sentRequests ((replying bodyMsg).request sampleLib "POST" urlMessageCreate
        (some SamplePayload.mapA1) 0).trace ∧
      headerOf postA1 "Authorization" = some ["Bot token"]) :=
  ⟨⟨by decide,
    request_authorization_is_token sampleLib (replying bodyMsg) "GET" urlUserMe
      (none : Option SamplePayload) 0 getUserMe (by decide)⟩,
   ⟨by decide,
    request_authorization_is_token sampleLib (replying bodyMsg) "POST" urlMessageCreate
      (some SamplePayload.mapA1) 0 postA1 (by decide)⟩⟩

/-- C2 (fails on the code): called with page 2 and page size 50 on a URL whose query is
`guild_id=1`, `Session.RequestWithPage` hands the dispatcher that very URL: the query
of the request sent holds neither `page=2` nor `page_size=50`. -/
theorem RequestWithPage_drops_page_parameters :
    List.map (fun q => q.URL)
        (sentRequests (pageTrace ((replying bodyList).RequestWithPage sampleLib "GET" urlRoleList
          (some { Page := some 2, PageSize := some 50, Sort_ := none })))) = [urlRoleList] ∧
      queryItems urlRoleList = ["guild_id=1"] ∧
      "page=2" ∉ queryItems urlRoleList ∧ "page_size=50" ∉ queryItems urlRoleList := by
  decide

/-- C5: when the body of the answer decodes to an envelope with code 0 whose data
decodes as a list envelope with items `I` and meta `M`, `Session.RequestWithPage`
returns `I` as response bytes, the page info `M`, and a nil error. -/
theorem RequestWithPage_list_envelope {P : Type} (L : Stdlib P) (s : Session)
    (method u : String) (page : PageSetting) (req : HttpRequest) (resp : HttpResponse)
    (respByte : Bytes) (r : EndpointGeneralResponse) (g : GeneralListData)
    (hsent : req ∈ sentRequests (pageTrace (s.RequestWithPage L method u (some page))))
    (hdo : s.Client req = Except.ok resp)
    (hread : resp.Body.ReadAll = Except.ok respByte)
    (hparse : L.decodeEnvelope respByte = Except.ok r)
    (hcode : r.Code = 0)
    (hlist : L.decodeListData (sliceBytes r.Data) = Except.ok g) :
    returned (s.RequestWithPage L method u (some page)) = some (g.Items, some g.Meta, none) := by
  obtain ⟨hs, heq⟩ := sent_of_pageTrace L s method u page req hsent
  have h := Request_of_envelope L s method u none req resp respByte r hs hdo hread hparse
  rw [if_neg (not_not.mpr hcode)] at h
  rw [heq]
  unfold returned listResult
  simp [h.1, h.2, Unmarshal, hlist]

/-- Witness of C5: data `{"items":[{"id":1}],"meta":{"page":1,"page_total":3}}` yields the
raw items `[{"id":1}]` and a meta with page 1 and page total 3. -/
theorem RequestWithPage_list_envelope_witness :
    sampleLib.decodeEnvelope bodyList =
        Except.ok { Code := 0, Message := "", Data := some dataList } ∧
      returned ((replying bodyList).RequestWithPage sampleLib "GET" urlRoleList
          (some { Page := some 1, PageSize := none, Sort_ := none })) =
        some (some itemsList,
          some { Page := 1, PageTotal := 3, PageSize := 0, Total := 0 }, none) :=
  ⟨rfl,
   RequestWithPage_list_envelope sampleLib (replying bodyList) "GET" urlRoleList
    { Page := some 1, PageSize := none, Sort_ := none } getRoleList (answer bodyList) bodyList
    { Code := 0, Message := "", Data := some dataList }
    { Items := some itemsList, Meta := { Page := 1, PageTotal := 3, PageSize := 0, Total := 0 } }
    (by decide) rfl rfl rfl rfl rfl⟩

/-- C6 as stated fails: for a code-0 envelope whose data is `{}`, an object with neither
items nor meta, `Session.RequestWithPage` returns nil items, a zero `PageInfo` and a
nil error. -/
theorem RequestWithPage_empty_object_no_error :
    sampleLib.decodeEnvelope bodyEmptyObject =
        Except.ok { Code := 0, Message := "", Data := some dataEmptyObject } ∧
      returned ((replying bodyEmptyObject).RequestWithPage sampleLib "GET" urlRoleList
          (some { Page := none, PageSize := none, Sort_ := none })) =
        some (none, some { Page := 0, PageTotal := 0, PageSize := 0, Total := 0 }, none) :=
  ⟨rfl, by decide⟩

/-- C6 as amended: when the body of the answer decodes to an envelope with code 0,
`Session.RequestWithPage` returns a non-nil error exactly when decoding the data into
the list envelope reports one: that error comes back with nil response bytes and a nil
page info, and data that decodes comes back as its items and meta with a nil error. -/
theorem RequestWithPage_error_iff_list_decoding_fails {P : Type} (L : Stdlib P) (s : Session)
    (method u : String) (page : PageSetting) (req : HttpRequest) (resp : HttpResponse)
    (respByte : Bytes) (r : EndpointGeneralResponse)
    (hsent : req ∈ sentRequests (pageTrace (s.RequestWithPage L method u (some page))))
    (hdo : s.Client req = Except.ok resp)
    (hread : resp.Body.ReadAll = Except.ok respByte)
    (hparse : L.decodeEnvelope respByte = Except.ok r)
    (hcode : r.Code = 0) :
    returned (s.RequestWithPage L method u (some page)) =
      match L.decodeListData (sliceBytes r.Data) with
      | Except.error e => some (none, none, some e)
      | Except.ok g => some (g.Items, some g.Meta, none) := by
  obtain ⟨hs, heq⟩ := sent_of_pageTrace L s method u page req hsent
  have h := Request_of_envelope L s method u none req resp respByte r hs hdo hread hparse
  rw [if_neg (not_not.mpr hcode)] at h
  rw [heq]
  unfold returned listResult
  cases hlist : L.decodeListData (sliceBytes r.Data) <;> simp [h.1, h.2, Unmarshal, hlist]

/-- Witness of amended C6: data that is the JSON string `"oops"` does not decode into the
list envelope, and the error is returned. -/
theorem RequestWithPage_error_iff_list_decoding_fails_witness :
    sampleLib.decodeListData dataString =
        Except.error "json: cannot unmarshal into Go value of type khl.GeneralListData" ∧
      returned ((replying bodyString).RequestWithPage sampleLib "GET" urlRoleList
          (some { Page := none, PageSize := none, Sort_ := none })) =
        some (none, none,
          some "json: cannot unmarshal into Go value of type khl.GeneralListData") :=
  ⟨rfl,
   RequestWithPage_error_iff_list_decoding_fails sampleLib (replying bodyString) "GET"
    urlRoleList { Page := none, PageSize := none, Sort_ := none } getRoleList
    (answer bodyString) bodyString { Code := 0, Message := "", Data := some dataString }
    (by decide) rfl rfl rfl rfl⟩

/-- C7 (fails on the code): `Session.MessageCreate` never returns a `MessageResp`; for
every library instance, session and argument it returns a nil `resp` and a non-nil
error, because the nil named result `resp` is the target of `json.Unmarshal`. -/
theorem MessageCreate_never_returns_resp (L : Stdlib Payload) (E : Endpoints) (s : Session)
    (m : Option MessageCreate) :
    (s.MessageCreate L E m).resp = none ∧ (s.MessageCreate L E m).err ≠ none := by
  unfold Session.MessageCreate
  cases h : (s.Request L "POST" E.EndpointMessageCreate (some (Payload.MessageCreate m))).err with
  | some e => simp [h]
  | none => simp [h, Unmarshal]

/-! ## Lemmas on parameter sets -/

/-- After `Set`, the key has one entry, holding the one value written. -/
theorem entries_Set_same (q : Values) (k x : String) :
    (q.Set k x).entries k = [(k, [x])] := by
  unfold Values.entries Values.Set
  simp [List.filter_cons, List.filter_filter]

/-- Writing another key leaves the entries of a key as they are. -/
theorem entries_Set_other (q : Values) (k k' x : String) (h : k' ≠ k) :
    (q.Set k' x).entries k = q.entries k := by
  unfold Values.entries Values.Set
  simp only [List.filter_cons, List.filter_filter]
  have h1 : ((k', [x]).1 == k) = false := by simpa using h
  rw [h1]
  simp only [Bool.false_eq_true, if_false]
  apply List.filter_congr
  intro kv _
  by_cases hk : kv.1 = k
  · have : ¬ k = k' := fun hc => h hc.symm
    simp [hk, this]
  · simp [hk]

/-- Options that write other keys leave the entries of a key as they are. -/
theorem entries_foldl_other (later : List (Values → Values)) (k : String)
    (hlater : ∀ o' ∈ later, ∃ k' v', k' ≠ k ∧ Writes o' k' v') (q : Values) :
    (List.foldl (fun q item => item q) q later).entries k = q.entries k := by
  induction later generalizing q with
  | nil => rfl
  | cons o' rest ih =>
    obtain ⟨k', v', hne, hw⟩ := hlater o' (List.mem_cons_self _ _)
    have hrest : ∀ o'' ∈ rest, ∃ k' v', k' ≠ k ∧ Writes o'' k' v' :=
      fun o'' hm => hlater o'' (List.mem_cons_of_mem _ hm)
    rw [List.foldl_cons, ih hrest, hw q, entries_Set_other q k k' v' hne]

/-- Last write wins: after the options are applied in order, the key written by `o`,
and by no later option, has one entry, holding the one value `o` wrote. -/
theorem entries_after_write (q0 : Values) (earlier later : List (Values → Values))
    (o : Values → Values) (k v : String) (hwrite : Writes o k v)
    (hlater : ∀ o' ∈ later, ∃ k' v', k' ≠ k ∧ Writes o' k' v') :
    (List.foldl (fun q item => item q) q0 (earlier ++ o :: later)).entries k = [(k, [v])] := by
  rw [List.foldl_append, List.foldl_cons, entries_foldl_other later k hlater, hwrite,
    entries_Set_same]

/-- A key with one entry looks up to the values of that entry. -/
theorem lookup_of_entries (q : Values) (k : String) (vs : List String)
    (h : q.entries k = [(k, vs)]) : q.lookup k = vs := by
  unfold Values.entries at h
  unfold Values.lookup
  have hq : ∀ l : List (String × List String),
      List.filter (fun kv => kv.1 == k) l = [(k, vs)] →
      List.find? (fun kv => kv.1 == k) l = some (k, vs) := by
    intro l
    induction l with
    | nil => intro hl; cases hl
    | cons a rest ih =>
      intro hl
      cases ha : (a.1 == k) with
      | true =>
        simp only [List.filter_cons, ha, if_true] at hl
        simp only [List.find?_cons, ha]
        injection hl with h1 _
        rw [h1]
      | false =>
        simp only [List.filter_cons, ha, Bool.false_eq_true, if_false] at hl
        simp only [List.find?_cons, ha]
        exact ih hl
  rw [hq q h]

/-- The items that `Encode` writes under a key with one entry of one value: exactly one
item, with that value. -/
theorem items_of_entries (q : Values) (k v : String) (h : q.entries k = [(k, [v])]) :
    List.filter (fun p => p.1 == k) q.items = [(k, v)] := by
  unfold Values.entries at h
  unfold Values.items
  have hflat : ∀ l : List (String × List String),
      List.filter (fun p : String × String => p.1 == k)
          (List.flatten (List.map (fun kv => List.map (fun x => (kv.1, x)) kv.2) l)) =
        List.flatten (List.map (fun kv => List.map (fun x => (kv.1, x)) kv.2)
          (List.filter (fun kv => kv.1 == k) l)) := by
    intro l
    induction l with
    | nil => rfl
    | cons a rest ih =>
      cases ha : (a.1 == k) with
      | true =>
        simp only [List.filter_cons, ha, if_true]
        simp only [List.map_cons, List.flatten_cons, List.filter_append, ih]
        congr 1
        rw [List.filter_eq_self]
        intro p hp
        obtain ⟨x, -, hx⟩ := List.mem_map.mp hp
        rw [← hx]
        exact ha
      | false =>
        simp only [List.filter_cons, ha, Bool.false_eq_true, if_false]
        simp only [List.map_cons, List.flatten_cons, List.filter_append, ih]
        have hnil : List.filter (fun p : String × String => p.1 == k)
            (List.map (fun x => (a.1, x)) a.2) = [] := by
          rw [List.filter_eq_nil_iff]
          intro p hp
          obtain ⟨x, -, hx⟩ := List.mem_map.mp hp
          rw [← hx]
          simp [ha]
        rw [hnil, List.nil_append]
  rw [hflat]
  have hperm : (List.filter (fun kv => kv.1 == k)
      (List.insertionSort (fun a b => a.1.toList ≤ b.1.toList) q)).Perm [(k, [v])] := by
    have hp := (List.perm_insertionSort (fun a b : String × List String =>
      a.1.toList ≤ b.1.toList) q).filter (fun kv => kv.1 == k)
    rw [h] at hp
    exact hp
  rw [List.perm_singleton.mp hperm]
  rfl

/-- Every option constructor of the package writes one key: it is a `Values.Set` of its
key, with the argument as value, `1` or `0` for a boolean argument. -/
theorem option_constructors_write (x : String) (b : Bool) (n : Int) :
    Writes (MessageListWithMsgID x) "msg_id" x ∧
      Writes (MessageListWithPin b) "pin" (if b then "1" else "0") ∧
      Writes (MessageListWithFlag x) "flag" x ∧
      Writes (GuildUserListWithChannelID x) "channel_id" x ∧
      Writes (GuildUserListWithSearch x) "search" x ∧
      Writes (GuildUserListWithRoleID n) "role_id" (FormatInt n) ∧
      Writes (GuildUserListWithMobileVerified b) "mobile_verified" (if b then "1" else "0") ∧
      Writes (GuildUserListWithActiveTime b) "active_time" (if b then "1" else "0") ∧
      Writes (GuildUserListWithJoinedAt b) "joined_at" (if b then "1" else "0") := by
  refine ⟨fun _ => rfl, ?_, fun _ => rfl, fun _ => rfl, fun _ => rfl, fun _ => rfl, ?_, ?_, ?_⟩ <;>
    intro values <;> cases b <;> rfl

/-! ## Lemmas on the endpoint functions -/

/-- Every request that `MessageList` hands to the client has the URL rendered from the
endpoint constant with the encoded parameter set as query. -/
theorem MessageList_sent_url {P D U : Type} (L : Stdlib P) (X : ListEnv D U) (s : Session)
    (targetID : String) (options : List MessageListOption) (req : HttpRequest)
    (hsent : req ∈ sentRequests (messageListTrace (s.MessageList L X targetID options))) :
    ∃ u, L.Parse X.EndpointMessageList = Except.ok u ∧
      req.URL = X.URLString (u.withQuery
        (L.Encode (messageListParams (L.ParseQuery u.RawQuery) targetID options))) := by
  unfold Session.MessageList at hsent
  cases hp : L.Parse X.EndpointMessageList with
  | error e => simp [hp, messageListTrace, sentRequests] at hsent
  | ok u =>
    refine ⟨u, rfl, ?_⟩
    simp only [hp] at hsent
    have htrace : req ∈ sentRequests (s.Request L "GET" (X.URLString (u.withQuery
        (L.Encode (messageListParams (L.ParseQuery u.RawQuery) targetID options))))
        (none : Option P)).trace := by
      split at hsent
      · exact hsent
      · split at hsent <;> exact hsent
    obtain ⟨body, -, hurl, -, -⟩ := sent_request_shape L s "GET" _ none 0 req htrace
    exact hurl

/-- Every request that `GuildUserList` hands to the client has the URL rendered from
the endpoint constant with the encoded parameter set as query. -/
theorem GuildUserList_sent_url {P D U : Type} (L : Stdlib P) (X : ListEnv D U) (s : Session)
    (guildID : String) (page : Option PageSetting) (options : List GuildUserListOption)
    (req : HttpRequest)
    (hsent : req ∈ sentRequests
      (guildUserListTrace (s.GuildUserList L X guildID page options))) :
    ∃ u, L.Parse X.EndpointGuildUserList = Except.ok u ∧
      req.URL = X.URLString (u.withQuery
        (L.Encode (guildUserListParams (L.ParseQuery u.RawQuery) guildID options))) := by
  unfold Session.GuildUserList at hsent
  cases hp : L.Parse X.EndpointGuildUserList with
  | error e => simp [hp, guildUserListTrace, sentRequests] at hsent
  | ok u =>
    refine ⟨u, rfl, ?_⟩
    simp only [hp] at hsent
    cases page with
    | none =>
      have hnone : s.RequestWithPage L "GET" (X.URLString (u.withQuery
          (L.Encode (guildUserListParams (L.ParseQuery u.RawQuery) guildID options))))
          none = none := by
        unfold Session.RequestWithPage
        cases L.Parse (X.URLString (u.withQuery
          (L.Encode (guildUserListParams (L.ParseQuery u.RawQuery) guildID options)))) <;> rfl
      simp [hnone, guildUserListTrace, sentRequests] at hsent
    | some page =>
      cases hr : s.RequestWithPage L "GET" (X.URLString (u.withQuery
          (L.Encode (guildUserListParams (L.ParseQuery u.RawQuery) guildID options))))
          (some page) with
      | none => simp [hr, guildUserListTrace, sentRequests] at hsent
      | some out =>
        simp only [hr] at hsent
        have htrace : req ∈ sentRequests out.trace := by
          split at hsent
          · exact hsent
          · split at hsent <;> exact hsent
        apply RequestWithPage_sends_input_url L s "GET" _ page req
        rw [hr]
        exact htrace

/-- Method of every request that `request` hands to the client: the method of the
call, GET when it is empty. -/
theorem sent_request_method {P : Type} (L : Stdlib P) (s : Session) (method url : String)
    (data : Option P) (sequence : Int) (req : HttpRequest)
    (hsent : req ∈ sentRequests (s.request L method url data sequence).trace) :
    req.Method = (if method = "" then "GET" else method) := by
  rw [sentRequests_request] at hsent
  cases hs : serialize L data with
  | error e => simp [hs] at hsent
  | ok body =>
    cases hn : NewRequest L method url body with
    | error e => simp [hs, hn] at hsent
    | ok req0 =>
      simp [hs, hn] at hsent
      subst hsent
      have h0 : req0.Method = (if method = "" then "GET" else method) := by
        unfold NewRequest at hn
        simp only [] at hn
        by_cases hv : L.validMethod (if method = "" then "GET" else method) = true
        · rw [if_pos hv] at hn
          cases hp : L.Parse url with
          | error e =>
            rw [hp] at hn
            cases hn
          | ok ur =>
            rw [hp] at hn
            injection hn with hn
            subst hn
            rfl
        · rw [if_neg hv] at hn
          cases hn
      unfold setHeaders
      simp only []
      split <;> exact h0

/-- Closings in a concatenated trace. -/
theorem closeCount_append (a b : List Event) :
    closeCount (a ++ b) = closeCount a + closeCount b := by
  simp [closeCount, List.count_append]

/-- The deferred function closes the body once. -/
theorem closeCount_closeResponse (resp : HttpResponse) :
    closeCount (closeResponse resp) = 1 := by
  unfold closeResponse
  cases resp.Body.Close <;> simp [closeCount]

/-- Reading and decoding the answer closes nothing. -/
theorem closeCount_readResponse {P : Type} (L : Stdlib P) (resp : HttpResponse) :
    closeCount (readResponse L resp).trace = 0 := by
  unfold readResponse
  cases h1 : resp.Body.ReadAll with
  | error e => simp [closeCount]
  | ok respByte =>
    simp only []
    cases h2 : L.decodeEnvelope respByte with
    | error e => simp [closeCount]
    | ok r => by_cases h : r.Code = 0 <;> simp [h, closeCount]

/-- Trace of `request` once a request has been sent: the records up to the exchange,
then either the log of the failed exchange, or the effects of reading the answer
followed by the deferred close. -/
theorem request_trace_of_sent {P : Type} (L : Stdlib P) (s : Session) (method url : String)
    (data : Option P) (sequence : Int) (req : HttpRequest)
    (hsent : req ∈ sentRequests (s.request L method url data sequence).trace) :
    (s.request L method url data sequence).trace =
      [Event.log LogLevel.Trace "http api request",
        Event.log LogLevel.Trace "http api request headers", Event.send req] ++
      (match s.Client req with
        | Except.error _ => [Event.log LogLevel.Error ""]
        | Except.ok resp => (readResponse L resp).trace ++ closeResponse resp) := by
  rw [sentRequests_request] at hsent
  cases hs : serialize L data with
  | error e => simp [hs] at hsent
  | ok body =>
    cases hn : NewRequest L method url body with
    | error e => simp [hs, hn] at hsent
    | ok req0 =>
      simp [hs, hn] at hsent
      subst hsent
      unfold Session.request
      simp only [hs, hn]
      cases hc : s.Client (setHeaders s req0 body) <;> simp

/-- A GET without payload, with a method and a URL that `http.NewRequest` accepts,
hands the client exactly one request: `bareGet`. -/
theorem sentRequests_bare_get {P : Type} (L : Stdlib P) (s : Session) (url : String)
    (u : URL) (hget : L.validMethod "GET" = true) (hurl : L.Parse url = Except.ok u) :
    sentRequests (s.Request L "GET" url (none : Option P)).trace = [bareGet s url] := by
  unfold Session.Request
  rw [sentRequests_request]
  simp [serialize, NewRequest, hget, hurl, setHeaders, sliceLen, sliceBytes, bareGet]

/-- The effects of `MessageList` are those of its one call of `Request`. -/
theorem messageListTrace_eq {P D U : Type} (L : Stdlib P) (X : ListEnv D U) (s : Session)
    (targetID : String) (options : List MessageListOption) (u : URL)
    (hp : L.Parse X.EndpointMessageList = Except.ok u) :
    messageListTrace (s.MessageList L X targetID options) =
      (s.Request L "GET" (X.URLString (u.withQuery
        (L.Encode (messageListParams (L.ParseQuery u.RawQuery) targetID options))))
        (none : Option P)).trace := by
  unfold Session.MessageList
  simp only [hp]
  split
  · rfl
  · split <;> rfl

/-- The effects of `GuildUserList` with a page setting are those of the one call of
`Request` inside `RequestWithPage`. -/
theorem guildUserListTrace_eq {P D U : Type} (L : Stdlib P) (X : ListEnv D U) (s : Session)
    (guildID : String) (page : PageSetting) (options : List GuildUserListOption) (u u' : URL)
    (hp : L.Parse X.EndpointGuildUserList = Except.ok u)
    (hurl : L.Parse (X.URLString (u.withQuery
      (L.Encode (guildUserListParams (L.ParseQuery u.RawQuery) guildID options)))) =
        Except.ok u') :
    guildUserListTrace (s.GuildUserList L X guildID (some page) options) =
      (s.Request L "GET" (X.URLString (u.withQuery
        (L.Encode (guildUserListParams (L.ParseQuery u.RawQuery) guildID options))))
        (none : Option P)).trace := by
  unfold Session.GuildUserList
  simp only [hp, RequestWithPage_eq, hurl]
  split
  · exact listResult_trace L _
  · split
    · exact listResult_trace L _
    · exact listResult_trace L _

/-- C11: the options of `MessageList` and of `GuildUserList` are applied in the supplied
order to one parameter set; when the option `o` writes `v` under the key `k` and no
later option writes `k`, then whatever the earlier options did (also when they wrote
`k`), the parameter set has exactly one entry for `k` with the one value `v`, the query
encoded from it holds exactly one item for `k`, the item `k=v`, and that encoded query
is the query of the URL the call requests: every request of the call has that URL, and
when `url.Parse` accepts the endpoint constant and the URL built from it (and the page
setting of `GuildUserList` is not nil), the call hands the client exactly one request,
the GET of that URL. -/
theorem options_last_write_wins {P D U : Type} (L : Stdlib P) (X : ListEnv D U) (s : Session)
    (escape : String → String) (id : String) (page : Option PageSetting)
    (earlier later : List (Values → Values)) (o : Values → Values) (k v : String)
    (hEncode : ∀ q, L.Encode q = Values.Encode escape q)
    (hwrite : Writes o k v)
    (hlater : ∀ o' ∈ later, ∃ k' v', k' ≠ k ∧ Writes o' k' v') :
    (∀ q0 : Values,
      (messageListParams q0 id (earlier ++ o :: later)).entries k = [(k, [v])] ∧
      (messageListParams q0 id (earlier ++ o :: later)).lookup k = [v] ∧
      List.filter (fun p => p.1 == k)
        (messageListParams q0 id (earlier ++ o :: later)).items = [(k, v)]) ∧
    (∀ req ∈ sentRequests (messageListTrace (s.MessageList L X id (earlier ++ o :: later))),
      ∃ u, L.Parse X.EndpointMessageList = Except.ok u ∧
        req.URL = X.URLString (u.withQuery (Values.Encode escape
          (messageListParams (L.ParseQuery u.RawQuery) id (earlier ++ o :: later))))) ∧
    (∀ u u' : URL, L.validMethod "GET" = true →
      L.Parse X.EndpointMessageList = Except.ok u →
      L.Parse (X.URLString (u.withQuery (Values.Encode escape
        (messageListParams (L.ParseQuery u.RawQuery) id (earlier ++ o :: later))))) =
          Except.ok u' →
      sentRequests (messageListTrace (s.MessageList L X id (earlier ++ o :: later))) =
        [bareGet s (X.URLString (u.withQuery (Values.Encode escape
          (messageListParams (L.ParseQuery u.RawQuery) id (earlier ++ o :: later)))))]) ∧
    (∀ q0 : Values,
      (guildUserListParams q0 id (earlier ++ o :: later)).entries k = [(k, [v])] ∧
      (guildUserListParams q0 id (earlier ++ o :: later)).lookup k = [v] ∧
      List.filter (fun p => p.1 == k)
        (guildUserListParams q0 id (earlier ++ o :: later)).items = [(k, v)]) ∧
    (∀ req ∈ sentRequests
        (guildUserListTrace (s.GuildUserList L X id page (earlier ++ o :: later))),
      ∃ u, L.Parse X.EndpointGuildUserList = Except.ok u ∧
        req.URL = X.URLString (u.withQuery (Values.Encode escape
          (guildUserListParams (L.ParseQuery u.RawQuery) id (earlier ++ o :: later))))) ∧
    (∀ (setting : PageSetting) (u u' : URL), L.validMethod "GET" = true →
      L.Parse X.EndpointGuildUserList = Except.ok u →
      L.Parse (X.URLString (u.withQuery (Values.Encode escape
        (guildUserListParams (L.ParseQuery u.RawQuery) id (earlier ++ o :: later))))) =
          Except.ok u' →
      sentRequests (guildUserListTrace
          (s.GuildUserList L X id (some setting) (earlier ++ o :: later))) =
        [bareGet s (X.URLString (u.withQuery (Values.Encode escape
          (guildUserListParams (L.ParseQuery u.RawQuery) id (earlier ++ o :: later)))))]) := by
  have hm : ∀ q0 : Values,
      (messageListParams q0 id (earlier ++ o :: later)).entries k = [(k, [v])] :=
    fun q0 => entries_after_write (q0.Set "target_id" id) earlier later o k v hwrite hlater
  have hg : ∀ q0 : Values,
      (guildUserListParams q0 id (earlier ++ o :: later)).entries k = [(k, [v])] :=
    fun q0 => entries_after_write (q0.Set "guild_id" id) earlier later o k v hwrite hlater
  refine ⟨?_, ?_, ?_, ?_, ?_, ?_⟩
  · intro q0
    exact ⟨hm q0, lookup_of_entries _ k [v] (hm q0), items_of_entries _ k v (hm q0)⟩
  · intro req hsent
    obtain ⟨u, hp, hurl⟩ := MessageList_sent_url L X s id (earlier ++ o :: later) req hsent
    rw [hEncode] at hurl
    exact ⟨u, hp, hurl⟩
  · intro u u' hget hp hurl
    rw [← hEncode] at hurl ⊢
    rw [messageListTrace_eq L X s id (earlier ++ o :: later) u hp]
    exact sentRequests_bare_get L s _ u' hget hurl
  · intro q0
    exact ⟨hg q0, lookup_of_entries _ k [v] (hg q0), items_of_entries _ k v (hg q0)⟩
  · intro req hsent
    obtain ⟨u, hp, hurl⟩ :=
      GuildUserList_sent_url L X s id page (earlier ++ o :: later) req hsent
    rw [hEncode] at hurl
    exact ⟨u, hp, hurl⟩
  · intro setting u u' hget hp hurl
    rw [← hEncode] at hurl ⊢
    rw [guildUserListTrace_eq L X s id setting (earlier ++ o :: later) u u' hp hurl]
    exact sentRequests_bare_get L s _ u' hget hurl

/-- Witness of C11. `MessageList` with `MessageListWithPin(true)` followed by
`MessageListWithPin(false)` sends exactly one request, with query `pin=0&target_id=c1`,
and its parameter set holds the one value `0` under `pin`. `GuildUserList` with page 2
and `GuildUserListWithSearch(a)` followed by `GuildUserListWithSearch(b)` sends exactly
one request, with query `guild_id=g1&search=b`, and its parameter set holds the one
value `b` under `search`. `MessageListWithMsgID(a)` followed by
`MessageListWithMsgID(b)` leaves the one value `b` under `msg_id`. -/
theorem options_last_write_wins_witness :
    (sentRequests (messageListTrace ((replying bodyMsg).MessageList apiLib sampleListEnv "c1"
        [MessageListWithPin true, MessageListWithPin false])) = [getMessageListPin0] ∧
      (messageListParams [] "c1"
        [MessageListWithPin true, MessageListWithPin false]).lookup "pin" = ["0"] ∧
      List.filter (fun p => p.1 == "pin") (messageListParams [] "c1"
        [MessageListWithPin true, MessageListWithPin false]).items = [("pin", "0")]) ∧
    (sentRequests (guildUserListTrace ((replying bodyList).GuildUserList apiLib sampleListEnv
        "g1" (some { Page := some 2, PageSize := none, Sort_ := none })
        [GuildUserListWithSearch "a", GuildUserListWithSearch "b"])) =
          [getGuildUserListSearchB] ∧
      (guildUserListParams [] "g1"
        [GuildUserListWithSearch "a", GuildUserListWithSearch "b"]).lookup "search" = ["b"] ∧
      List.filter (fun p => p.1 == "search") (guildUserListParams [] "g1"
        [GuildUserListWithSearch "a", GuildUserListWithSearch "b"]).items =
          [("search", "b")]) ∧
    (messageListParams [] "c1"
        [MessageListWithMsgID "a", MessageListWithMsgID "b"]).lookup "msg_id" = ["b"] :=
  ⟨⟨((options_last_write_wins apiLib sampleListEnv (replying bodyMsg) (fun x => x) "c1" none
        [MessageListWithPin true] [] (MessageListWithPin false) "pin" "0"
        (fun _ => rfl) (fun _ => rfl) (fun _ h => absurd h (List.not_mem_nil _))).2.2.1
        { Scheme := "https", Host := "www.kaiheila.cn", Path := "/api/v3/message/list",
          RawQuery := "" }
        { Scheme := "https", Host := "www.kaiheila.cn", Path := "/api/v3/message/list",
          RawQuery := "pin=0&target_id=c1" }
        rfl rfl rfl).trans (by decide),
    ((options_last_write_wins apiLib sampleListEnv (replying bodyMsg) (fun x => x) "c1" none
        [MessageListWithPin true] [] (MessageListWithPin false) "pin" "0"
        (fun _ => rfl) (fun _ => rfl) (fun _ h => absurd h (List.not_mem_nil _))).1 []).2⟩,
   ⟨((options_last_write_wins apiLib sampleListEnv (replying bodyList) (fun x => x) "g1" none
        [GuildUserListWithSearch "a"] [] (GuildUserListWithSearch "b") "search" "b"
        (fun _ => rfl) (fun _ => rfl) (fun _ h => absurd h (List.not_mem_nil _))).2.2.2.2.2
        { Page := some 2, PageSize := none, Sort_ := none }
        { Scheme := "https", Host := "www.kaiheila.cn", Path := "/api/v3/guild/user-list",
          RawQuery := "" }
        { Scheme := "https", Host := "www.kaiheila.cn", Path := "/api/v3/guild/user-list",
          RawQuery := "guild_id=g1&search=b" }
        rfl rfl rfl).trans (by decide),
    ((options_last_write_wins apiLib sampleListEnv (replying bodyList) (fun x => x) "g1" none
        [GuildUserListWithSearch "a"] [] (GuildUserListWithSearch "b") "search" "b"
        (fun _ => rfl) (fun _ => rfl)
        (fun _ h => absurd h (List.not_mem_nil _))).2.2.2.1 []).2⟩,
   ((options_last_write_wins apiLib sampleListEnv (replying bodyMsg) (fun x => x) "c1" none
      [MessageListWithMsgID "a"] [] (MessageListWithMsgID "b") "msg_id" "b"
      (fun _ => rfl) (fun _ => rfl) (fun _ h => absurd h (List.not_mem_nil _))).1 []).2.1⟩

/-- C12: for every boolean `b` and every parameter set, each boolean-valued option
(`MessageListWithPin`, `GuildUserListWithMobileVerified`, `GuildUserListWithActiveTime`,
`GuildUserListWithJoinedAt`) leaves under its key the one value `1` when `b` is true
and `0` when `b` is false, and so neither `true` nor `false`. -/
theorem bool_options_write_one_or_zero (b : Bool) (values : Values) :
    ((MessageListWithPin b values).lookup "pin" = [if b then "1" else "0"] ∧
      "true" ∉ (MessageListWithPin b values).lookup "pin" ∧
      "false" ∉ (MessageListWithPin b values).lookup "pin") ∧
    ((GuildUserListWithMobileVerified b values).lookup "mobile_verified" =
        [if b then "1" else "0"] ∧
      "true" ∉ (GuildUserListWithMobileVerified b values).lookup "mobile_verified" ∧
      "false" ∉ (GuildUserListWithMobileVerified b values).lookup "mobile_verified") ∧
    ((GuildUserListWithActiveTime b values).lookup "active_time" = [if b then "1" else "0"] ∧
      "true" ∉ (GuildUserListWithActiveTime b values).lookup "active_time" ∧
      "false" ∉ (GuildUserListWithActiveTime b values).lookup "active_time") ∧
    ((GuildUserListWithJoinedAt b values).lookup "joined_at" = [if b then "1" else "0"] ∧
      "true" ∉ (GuildUserListWithJoinedAt b values).lookup "joined_at" ∧
      "false" ∉ (GuildUserListWithJoinedAt b values).lookup "joined_at") := by
  have hset : ∀ (k x : String), (values.Set k x).lookup k = [x] :=
    fun k x => lookup_of_entries _ k [x] (entries_Set_same values k x)
  cases b <;>
    simp [MessageListWithPin, GuildUserListWithMobileVerified, GuildUserListWithActiveTime,
      GuildUserListWithJoinedAt, hset]

/-- C13 (fails on the code): every request that `Session.ChannelDelete` sends is a POST
of the serialized `{channel_id}` struct to `EndpointChannelRoleDelete`, the very URL of
every request that `Session.ChannelRoleDelete` sends; the two do not post to different
endpoints. -/
theorem ChannelDelete_posts_to_role_delete_endpoint (L : Stdlib Payload) (E : Endpoints)
    (s : Session) (channelID : String) (crd : Option ChannelRoleBase) (req req' : HttpRequest)
    (hsent : req ∈ sentRequests (s.ChannelDelete L E channelID).trace)
    (hsent' : req' ∈ sentRequests (s.ChannelRoleDelete L E crd).trace) :
    req.Method = "POST" ∧
      L.Marshal (Payload.ChannelID channelID) = Except.ok req.Body ∧
      req.URL = E.EndpointChannelRoleDelete ∧
      req'.Method = "POST" ∧ req'.URL = E.EndpointChannelRoleDelete ∧
      req.URL = req'.URL := by
  have h1 : req ∈ sentRequests (s.request L "POST" E.EndpointChannelRoleDelete
      (some (Payload.ChannelID channelID)) 0).trace := hsent
  have h2 : req' ∈ sentRequests (s.request L "POST" E.EndpointChannelRoleDelete
      (some (Payload.ChannelRoleDelete crd)) 0).trace := hsent'
  obtain ⟨body, hs, hurl, hbody, -⟩ := sent_request_shape L s "POST" _ _ 0 req h1
  obtain ⟨body', -, hurl', -, -⟩ := sent_request_shape L s "POST" _ _ 0 req' h2
  have hm := sent_request_method L s "POST" _ _ 0 req h1
  have hm' := sent_request_method L s "POST" _ _ 0 req' h2
  have hmarshal : L.Marshal (Payload.ChannelID channelID) = Except.ok req.Body := by
    unfold serialize at hs
    cases hmar : L.Marshal (Payload.ChannelID channelID) with
    | error e => simp [hmar] at hs
    | ok b =>
      simp [hmar] at hs
      rw [hbody, ← hs]
      rfl
  refine ⟨?_, hmarshal, hurl, ?_, hurl', ?_⟩
  · simpa using hm
  · simpa using hm'
  · rw [hurl, hurl']

/-- Witness of C13: for channel `c1`, `ChannelDelete` and `ChannelRoleDelete` send the
same POST to the channel-role deletion URL. -/
theorem ChannelDelete_posts_to_role_delete_endpoint_witness :
    sentRequests ((replying bodyEmptyObject).ChannelDelete apiLib sampleEndpoints "c1").trace =
        [postChannelC1] ∧
      sentRequests ((replying bodyEmptyObject).ChannelRoleDelete apiLib sampleEndpoints
        (some { ChannelID := "c1", Type_ := "", Value := "" })).trace = [postChannelC1] ∧
      postChannelC1.Method = "POST" ∧
      postChannelC1.URL = "https://www.kaiheila.cn/api/v3/channel-role/delete" :=
  ⟨by decide, by decide,
    (ChannelDelete_posts_to_role_delete_endpoint apiLib sampleEndpoints
      (replying bodyEmptyObject) "c1" (some { ChannelID := "c1", Type_ := "", Value := "" })
      postChannelC1 postChannelC1 (by decide) (by decide)).1,
    (ChannelDelete_posts_to_role_delete_endpoint apiLib sampleEndpoints
      (replying bodyEmptyObject) "c1" (some { ChannelID := "c1", Type_ := "", Value := "" })
      postChannelC1 postChannelC1 (by decide) (by decide)).2.2.1⟩

/-- C14: in every call of `Session.request` that hands a request to the client, when
the exchange returns a response its body is closed exactly once, as the last step of the
call after reading and decoding, whichever way these end; when the exchange fails, no
close is attempted. -/
theorem request_closes_body_once {P : Type} (L : Stdlib P) (s : Session) (method url : String)
    (data : Option P) (sequence : Int) (req : HttpRequest)
    (hsent : req ∈ sentRequests (s.request L method url data sequence).trace) :
    (∀ resp, s.Client req = Except.ok resp →
      closeCount (s.request L method url data sequence).trace = 1 ∧
      ∃ t, (s.request L method url data sequence).trace = t ++ closeResponse resp ∧
        closeCount t = 0) ∧
    (∀ e, s.Client req = Except.error e →
      closeCount (s.request L method url data sequence).trace = 0) := by
  have ht := request_trace_of_sent L s method url data sequence req hsent
  constructor
  · intro resp hdo
    rw [hdo] at ht
    have hsplit : (s.request L method url data sequence).trace =
        ([Event.log LogLevel.Trace "http api request",
          Event.log LogLevel.Trace "http api request headers", Event.send req] ++
          (readResponse L resp).trace) ++ closeResponse resp := by
      rw [ht, List.append_assoc]
    have hzero : closeCount ([Event.log LogLevel.Trace "http api request",
        Event.log LogLevel.Trace "http api request headers", Event.send req] ++
        (readResponse L resp).trace) = 0 := by
      rw [closeCount_append, closeCount_readResponse]
      simp [closeCount]
    refine ⟨?_, _, hsplit, hzero⟩
    rw [hsplit, closeCount_append, hzero, closeCount_closeResponse]
  · intro e hdo
    rw [hdo] at ht
    rw [ht]
    simp [closeCount]

/-- Witness of C14: one close when the body cannot be read, when it is no envelope, when
the code is not 0 and on success; none when the exchange fails. -/
theorem request_closes_body_once_witness :
    (closeCount ((answering unreadable).request sampleLib "GET" urlUserMe
        (none : Option SamplePayload) 0).trace = 1 ∧
      ((answering unreadable).request sampleLib "GET" urlUserMe
        (none : Option SamplePayload) 0).err = some "unexpected EOF") ∧
    closeCount ((replying bodyHtml).request sampleLib "GET" urlUserMe
        (none : Option SamplePayload) 0).trace = 1 ∧
    closeCount ((replying bodyBadToken).request sampleLib "GET" urlUserMe
        (none : Option SamplePayload) 0).trace = 1 ∧
    closeCount ((replying bodyMsg).request sampleLib "GET" urlUserMe
        (none : Option SamplePayload) 0).trace = 1 ∧
    (closeCount (refusing.request sampleLib "GET" urlUserMe
        (none : Option SamplePayload) 0).trace = 0 ∧
      (refusing.request sampleLib "GET" urlUserMe
        (none : Option SamplePayload) 0).err = some "dial tcp: connection refused") :=
  ⟨⟨((request_closes_body_once sampleLib (answering unreadable) "GET" urlUserMe none 0
        getUserMe (by decide)).1 unreadable rfl).1, by decide⟩,
   ((request_closes_body_once sampleLib (replying bodyHtml) "GET" urlUserMe none 0
        getUserMe (by decide)).1 (answer bodyHtml) rfl).1,
   ((request_closes_body_once sampleLib (replying bodyBadToken) "GET" urlUserMe none 0
        getUserMe (by decide)).1 (answer bodyBadToken) rfl).1,
   ((request_closes_body_once sampleLib (replying bodyMsg) "GET" urlUserMe none 0
        getUserMe (by decide)).1 (answer bodyMsg) rfl).1,
   ⟨(request_closes_body_once sampleLib refusing "GET" urlUserMe none 0
        getUserMe (by decide)).2 "dial tcp: connection refused" rfl, by decide⟩⟩

end khl
